import Mathlib

/-!
Verification development for the Net RTR workbook-patching core of the
Excelerate-Desktop repository.

The component under study is `PyodideService` (the orchestrator
`updatePortfolioWorkbookWithNetRtr`, its embedded Python patch script, and the
single-flight `initialize` provisioner), together with the parallel
`ExcelService.generateNetRtrColumnName` implementation.  The Python patch
script is embedded here function by function: its string and date primitives
are modelled over `List Char` / `Int` (executable, kernel-reducible), sheets
are modelled as a grid of styled cells with explicit `maxRow` / `maxCol`
dimensions, and the external openpyxl engine calls (load / save of the ZIP
container) are parameters of the orchestrator.

Numeric cell payloads (currency amounts) are modelled as `Int`: the source
carries them through from JSON to cell unchanged and never computes with
them, so only their identity matters.
-/

namespace Excelerate

/-! ### Python string primitives

The embedded script manipulates Python `str` values.  Lean core string
functions are not kernel-reducible, so the Python primitives used by the
source (`split`, `strip`, `startswith`, `in`, `str()`, `int()`, `zfill`) are
modelled structurally over `List Char`. -/

/-- Python `str.split(sep)` for a single-character separator. -/
def chSplitGo (sep : Char) : List Char → List Char → List String
  | [], acc => [String.mk acc.reverse]
  | ch :: rest, acc =>
    if ch = sep then String.mk acc.reverse :: chSplitGo sep rest []
    else chSplitGo sep rest (ch :: acc)

def chSplit (sep : Char) (s : String) : List String := chSplitGo sep s.toList []

/-- Python `sep in s` for a single character. -/
def containsChar (sep : Char) (s : String) : Bool := s.toList.contains sep

/-- Python whitespace test used by `str.strip()`. -/
def pyIsSpace (c : Char) : Bool :=
  c = ' ' ∨ c = '\t' ∨ c = '\n' ∨ c = '\r' ∨ c = '\x0b' ∨ c = '\x0c'

/-- Python `str.strip()`: drop leading and trailing whitespace. -/
def pyStrip (s : String) : String :=
  String.mk (((s.toList.dropWhile pyIsSpace).reverse.dropWhile pyIsSpace).reverse)

/-- Python `s.startswith(p)`. -/
def startsWithStr (p s : String) : Bool := List.isPrefixOf p.toList s.toList

/-- Python `p in s` (substring containment). -/
def containsSub (p s : String) : Bool :=
  (s.toList.tails).any (fun t => List.isPrefixOf p.toList t)

/-- Digit run parser underlying `int()`. -/
def pyDigits : List Char → Option Nat
  | [] => none
  | cs => cs.foldlM (fun acc ch => if ch.isDigit then some (acc * 10 + (ch.toNat - 48)) else none) 0

/-- Python `int(s)`: optional surrounding whitespace, optional sign, a digit
run.  (Digit-group underscores are not exercised by this code base.) -/
def pyInt (s : String) : Option Int :=
  let t := (s.toList.dropWhile pyIsSpace).reverse.dropWhile pyIsSpace |>.reverse
  match t with
  | '-' :: cs => (pyDigits cs).map (fun n => -(n : Int))
  | '+' :: cs => (pyDigits cs).map (fun n => (n : Int))
  | cs => (pyDigits cs).map (fun n => (n : Int))

/-- Python `str(n).zfill(2)`. -/
def zfill2 (s : String) : String :=
  if 2 ≤ s.length then s else String.mk (List.replicate (2 - s.length) '0') ++ s

/-! ### Dates

`datetime(year, month, day)` construction and `timedelta(days = n)`
subtraction, via the standard proleptic-Gregorian day-number conversion. -/

def isLeap (y : Int) : Bool := y % 4 = 0 ∧ (y % 100 ≠ 0 ∨ y % 400 = 0)

def daysInMonth (y m : Int) : Int :=
  if m = 1 then 31 else if m = 2 then (if isLeap y then 29 else 28)
  else if m = 3 then 31 else if m = 4 then 30 else if m = 5 then 31
  else if m = 6 then 30 else if m = 7 then 31 else if m = 8 then 31
  else if m = 9 then 30 else if m = 10 then 31 else if m = 11 then 30
  else 31

/-- Python `datetime(y, m, d)` validity (raises `ValueError` otherwise). -/
def validDate (y m d : Int) : Bool :=
  1 ≤ y ∧ y ≤ 9999 ∧ 1 ≤ m ∧ m ≤ 12 ∧ 1 ≤ d ∧ d ≤ daysInMonth y m

/-- Day number of a civil date (days since 1970-01-01, proleptic Gregorian). -/
def daysFromCivil (y m d : Int) : Int :=
  let y' := if m ≤ 2 then y - 1 else y
  let era := Int.fdiv y' 400
  let yoe := y' - era * 400
  let mp := if 2 < m then m - 3 else m + 9
  let doy := (153 * mp + 2) / 5 + d - 1
  let doe := yoe * 365 + yoe / 4 - yoe / 100 + doy
  era * 146097 + doe - 719468

/-- Inverse of `daysFromCivil`. -/
def civilFromDays (z : Int) : Int × Int × Int :=
  let z' := z + 719468
  let era := Int.fdiv z' 146097
  let doe := z' - era * 146097
  let yoe := (doe - doe / 1460 + doe / 36524 - doe / 146096) / 365
  let y := yoe + era * 400
  let doy := doe - (365 * yoe + yoe / 4 - yoe / 100)
  let mp := (5 * doy + 2) / 153
  let d := doy - (153 * mp + 2) / 5 + 1
  let m := if mp < 10 then mp + 3 else mp - 9
  (if mp < 10 then y else y + 1, m, d)

/-- Python `date - timedelta(days = n)`. -/
def subDays (y m d n : Int) : Int × Int × Int := civilFromDays (daysFromCivil y m d - n)

/-! ### Column namer

`generate_net_rtr_column` from the embedded Python (part_007 lines 167-189);
`ExcelService.generateNetRtrColumnName` (excel-service.ts lines 134-177)
implements the same branch structure.  A Python exception (unsupported
format, missing parts, failed `int()`) is modelled as `none`. -/

/-- Year-suffix policy shared by both implementations:
`year == 2025 or year == 25` gives the fixed suffix `/25`; `year > 2000`
gives no suffix; anything else gives `str(year).zfill(2)`. -/
def netRtrLabelYMD (y m d : Int) : String :=
  if y = 2025 ∨ y = 25 then
    "Net RTR " ++ toString m ++ "/" ++ toString d ++ "/25"
  else if 2000 < y then
    "Net RTR " ++ toString m ++ "/" ++ toString d
  else
    "Net RTR " ++ toString m ++ "/" ++ toString d ++ "/" ++ zfill2 (toString y)

/-- `generate_net_rtr_column(date_str)`: accepts `YYYY-MM-DD` (split on `-`,
components `parts[0..2]` as year, month, day) and `MM/DD/YYYY` (split on `/`,
components as month, day, year); anything else raises. -/
def generate_net_rtr_column (date_str : String) : Option String :=
  if containsChar '-' date_str then
    match chSplit '-' date_str with
    | sy :: sm :: sd :: _ =>
      match pyInt sy, pyInt sm, pyInt sd with
      | some y, some m, some d => some (netRtrLabelYMD y m d)
      | _, _, _ => none
    | _ => none
  else if containsChar '/' date_str then
    match chSplit '/' date_str with
    | sm :: sd :: sy :: _ =>
      match pyInt sm, pyInt sd, pyInt sy with
      | some m, some d, some y => some (netRtrLabelYMD y m d)
      | _, _, _ => none
    | _ => none
  else none

/-! ### Cells and sheets

An openpyxl worksheet is modelled as a total grid of cells with explicit
`maxRow` / `maxCol` dimensions (a well-formed sheet is empty outside them)
and per-column widths.  A cell carries a value (string or numeric), a number
format, and the four style components the source copies (font, fill, border,
alignment), each modelled by an opaque identifier.  openpyxl style attributes
are always truthy, so the source's `if ref_cell.font:` guards always fire and
the copies are modelled unconditionally. -/

/-- A cell value: Python strings or numeric payloads. -/
inductive Val where
  | vStr (s : String)
  | vNum (n : Int)
deriving DecidableEq

/-- Python `str(v)` on a cell value. -/
def pyStr : Val → String
  | .vStr s => s
  | .vNum n => toString n

/-- Python truthiness of `cell.value` (`None`, `""` and `0` are falsy). -/
def pyTruthy : Option Val → Bool
  | none => false
  | some (.vStr s) => s ≠ ""
  | some (.vNum n) => n ≠ 0

/-- `str(cell.value)` guarded by `if cell.value:`. -/
def truthyStr (v : Option Val) : Option String :=
  match v with
  | some x => if pyTruthy (some x) then some (pyStr x) else none
  | none => none

structure Cell where
  value : Option Val
  numFmt : Option String
  font : Nat
  fill : Nat
  border : Nat
  alignment : Nat
deriving DecidableEq

def emptyCell : Cell := ⟨none, none, 0, 0, 0, 0⟩

structure Sheet where
  cells : Nat → Nat → Cell
  maxRow : Nat
  maxCol : Nat
  colWidth : Nat → Option Nat

/-- A sheet is well-formed when every cell outside its recorded dimensions is
empty (openpyxl cells outside the dimension bounds do not exist). -/
def Sheet.wf (s : Sheet) : Prop :=
  ∀ r c, (s.maxRow < r ∨ s.maxCol < c) → s.cells r c = emptyCell

/-- `ws.cell(row, column, value = v)` / `cell.value = v`: writing a cell value
creates the cell, extending the worksheet dimensions. -/
def setCellValue (s : Sheet) (r c : Nat) (v : Option Val) : Sheet :=
  { cells := fun r' c' => if r' = r ∧ c' = c then { s.cells r c with value := v } else s.cells r' c',
    maxRow := max s.maxRow r, maxCol := max s.maxCol c, colWidth := s.colWidth }

/-- `cell.number_format = f` (the cell already exists). -/
def setCellFmt (s : Sheet) (r c : Nat) (f : Option String) : Sheet :=
  { cells := fun r' c' => if r' = r ∧ c' = c then { s.cells r c with numFmt := f } else s.cells r' c',
    maxRow := s.maxRow, maxCol := s.maxCol, colWidth := s.colWidth }

/-- Copy font, fill, border and alignment from one cell onto another
(part_007 lines 305-312 and 363-370). -/
def copyStyle (s : Sheet) (fr fc tr tc : Nat) : Sheet :=
  { cells := fun r' c' =>
      if r' = tr ∧ c' = tc then
        { s.cells tr tc with
          font := (s.cells fr fc).font, fill := (s.cells fr fc).fill,
          border := (s.cells fr fc).border, alignment := (s.cells fr fc).alignment }
      else s.cells r' c',
    maxRow := s.maxRow, maxCol := s.maxCol, colWidth := s.colWidth }

/-- `ws.column_dimensions[col_letter].width = 15` (part_007 lines 380-382). -/
def setColWidth (s : Sheet) (c w : Nat) : Sheet :=
  { cells := s.cells, maxRow := s.maxRow, maxCol := s.maxCol,
    colWidth := fun c' => if c' = c then some w else s.colWidth c' }

/-! ### Pivot data and the net-amount lookup -/

structure PivotTableData where
  advance_id : String
  merchant_name : String
  gross_amount : Int
  management_fee : Int
  net_amount : Int
deriving DecidableEq

structure FunderPivotData where
  funder_name : String
  sheet_name : String
  pivot_data : List PivotTableData
  file_path : String
deriving DecidableEq

/-- Python dict assignment `m[k] = v` (replaces an existing binding). -/
def dictInsert (m : List (String × Int)) (k : String) (v : Int) : List (String × Int) :=
  if (m.find? (fun p => p.1 = k)).isSome then
    m.map (fun p => if p.1 = k then (k, v) else p)
  else m ++ [(k, v)]

/-- Python dict lookup / membership. -/
def dictLookup (m : List (String × Int)) (k : String) : Option Int :=
  (m.find? (fun p => p.1 = k)).map (fun p => p.2)

/-- `net_amount_map` construction (part_007 lines 210-214): every pivot row
except the `"Totals"` sentinel. -/
def buildNetAmountMap (pivot_data : List PivotTableData) : List (String × Int) :=
  pivot_data.foldl
    (fun m row => if row.advance_id ≠ "Totals" then dictInsert m row.advance_id row.net_amount else m)
    []

/-! ### Header scan (part_007 lines 218-249)

One pass over row 2 of columns `1 .. max_column` recording the exact-match
column (last match wins), all `"Net RTR"` family columns in ascending order,
the greatest family column, and the last column with a non-empty header
(initialised to 1). -/

structure ScanResult where
  netRtrCol : Option Nat
  netRtrColumns : List (Nat × String)
  lastNetRtrCol : Nat
  lastDataCol : Nat
deriving DecidableEq

def scanStep (s : Sheet) (target : String) (acc : ScanResult) (col : Nat) : ScanResult :=
  match truthyStr ((s.cells 2 col).value) with
  | none => acc
  | some raw =>
    let v := pyStrip raw
    let acc1 := if v ≠ "" then { acc with lastDataCol := col } else acc
    if startsWithStr "Net RTR" v then
      let acc2 := { acc1 with netRtrColumns := acc1.netRtrColumns ++ [(col, v)],
                              lastNetRtrCol := max acc1.lastNetRtrCol col }
      if v = target then { acc2 with netRtrCol := some col } else acc2
    else acc1

def scanHeaders (s : Sheet) (target : String) : ScanResult :=
  (List.range' 1 s.maxCol).foldl (scanStep s target) ⟨none, [], 0, 1⟩

/-! ### Column placement (part_007 lines 258-296)

When no exact header match exists: if the report date splits on `-` into
three `int()`-parseable parts forming a valid date, look for the columns of
the previous 1..4 Fridays under the hard-coded label `"Net RTR {m}/{d}/25"`
(first matching family column, nearest week first) and place right after the
hit; otherwise place after the last family column, or after the last data
column when no family column exists. -/

/-- Label probed for a date `weeks_back` weeks before the report date
(part_007 line 273 - note the hard-coded `/25` year suffix). -/
def prevColName (y m d : Int) (weeksBack : Nat) : String :=
  let p := subDays y m d (7 * weeksBack)
  "Net RTR " ++ toString p.2.1 ++ "/" ++ toString p.2.2 ++ "/25"

/-- The `for weeks_back in range(1, 5)` loop with its early `break`, as
structural recursion on the number of weeks still to try. -/
def searchWeeksGo (fam : List (Nat × String)) (y m d : Int) : Nat → Nat → Option Nat
  | 0, _ => none
  | fuel + 1, w =>
    match fam.find? (fun p => p.2 = prevColName y m d w) with
    | some p => some (p.1 + 1)
    | none => searchWeeksGo fam y m d fuel (w + 1)

/-- `for weeks_back in range(1, 5)`: weeks 1, 2, 3, 4 in order. -/
def searchWeeksFrom (fam : List (Nat × String)) (y m d : Int) (w : Nat) : Option Nat :=
  searchWeeksGo fam y m d (5 - w) w

/-- Previous-Friday search (part_007 lines 261-285).  A `ValueError` from
`int()` or an invalid date passed to `datetime()` aborts the operation. -/
def findPrior (fam : List (Nat × String)) (report_date : String) : Except Unit (Option Nat) :=
  let parts := chSplit '-' report_date
  if parts.length = 3 then
    match pyInt (parts.getD 0 ""), pyInt (parts.getD 1 ""), pyInt (parts.getD 2 "") with
    | some y, some m, some d =>
      if validDate y m d then Except.ok (searchWeeksFrom fam y m d 1) else Except.error ()
    | _, _, _ => Except.error ()
  else Except.ok none

/-- Placement decision for a new column (part_007 lines 258-296). -/
def choosePlacement (sc : ScanResult) (report_date : String) : Except Unit Nat := do
  let prior ← findPrior sc.netRtrColumns report_date
  match prior with
  | some c => Except.ok c
  | none =>
    if 0 < sc.lastNetRtrCol then Except.ok (sc.lastNetRtrCol + 1)
    else Except.ok (sc.lastDataCol + 1)

/-! ### Key column, data writes (part_007 lines 326-372) -/

/-- Search row 2 of columns `1 .. min(max_column, 19)` for a header containing
`"Funder Advance ID"`; fall back to column 5. -/
def findKeyCol (s : Sheet) : Nat :=
  match (List.range' 1 (min s.maxCol 19)).find?
      (fun col => match truthyStr ((s.cells 2 col).value) with
        | some raw => containsSub "Funder Advance ID" raw
        | none => false) with
  | some c => c
  | none => 5

/-- One iteration of the data-row loop: read the key cell, and on a match
write the net amount, apply the currency mask, and copy the style of the
reference cell (`ref_col = max(7, min(net_rtr_col - 1, last_data_col))`,
hoisted - it does not depend on the row). -/
def writeRowStep (m : List (String × Int)) (kCol nCol refCol : Nat) :
    Sheet × Nat → Nat → Sheet × Nat :=
  fun sc r =>
    match truthyStr ((sc.1.cells r kCol).value) with
    | none => sc
    | some raw =>
      match dictLookup m (pyStrip raw) with
      | none => sc
      | some amt =>
        let s1 := setCellValue sc.1 r nCol (some (.vNum amt))
        let s2 := setCellFmt s1 r nCol (some "$#,##0.00")
        let s3 := copyStyle s2 r refCol r nCol
        (s3, sc.2 + 1)

/-- The data-row loop over an explicit row list. -/
def writeRowsGo (m : List (String × Int)) (kCol nCol refCol : Nat)
    (rows : List Nat) (s : Sheet) : Sheet × Nat :=
  rows.foldl (writeRowStep m kCol nCol refCol) (s, 0)

/-- Row list of the data loop: `range(3, min(ws.max_row + 1, 1000))`
(part_007 line 339) - rows beyond 999 are never scanned. -/
def dataRowList (s : Sheet) : List Nat := List.range' 3 (min (s.maxRow + 1) 1000 - 3)

/-- `for row_idx in range(3, min(ws.max_row + 1, 1000)): ...` -/
def writeDataRows (m : List (String × Int)) (kCol nCol refCol : Nat) (s : Sheet) : Sheet × Nat :=
  writeRowsGo m kCol nCol refCol (dataRowList s) s

/-! ### Clearing, header creation, and the per-sheet update
(part_007 lines 196-386) -/

/-- Replace mode first clears all data cells of the column below row 2
(part_007 lines 251-257). -/
def clearColumnData (s : Sheet) (c : Nat) : Sheet :=
  (List.range' 3 (s.maxRow + 1 - 3)).foldl (fun s' r => setCellValue s' r c none) s

/-- Write the header of a newly placed column and copy the style of the
header to its left (part_007 lines 298-312). -/
def writeHeader (s : Sheet) (c : Nat) (label : String) : Sheet :=
  let s1 := setCellValue s 2 c (some (.vStr label))
  if 1 < c then copyStyle s1 2 (c - 1) 2 c else s1

/-- Key-column search, data writes, and column width, shared by both modes
(part_007 lines 326-382): the key column is searched on the current sheet,
the style reference column is `max(7, min(net_rtr_col - 1, last_data_col))`,
and the new column gets width 15. -/
def finishWrite (m : List (String × Int)) (lastData c : Nat) (s : Sheet) : Sheet × Nat :=
  (setColWidth (writeDataRows m (findKeyCol s) c (max 7 (min (c - 1) lastData)) s).1 c 15,
   (writeDataRows m (findKeyCol s) c (max 7 (min (c - 1) lastData)) s).2)

/-- Process one funder sheet (the loop body, part_007 lines 196-386): build
the lookup, scan headers, reuse-and-clear or place-and-create the Net RTR
column, then match and write the data rows.  Returns the updated sheet and
`updates_count`. -/
def applySheet (net_rtr_column report_date : String) (pivot_data : List PivotTableData)
    (ws : Sheet) : Except Unit (Sheet × Nat) :=
  match (scanHeaders ws net_rtr_column).netRtrCol with
  | some c =>
    Except.ok (finishWrite (buildNetAmountMap pivot_data)
      (scanHeaders ws net_rtr_column).lastDataCol c (clearColumnData ws c))
  | none =>
    (choosePlacement (scanHeaders ws net_rtr_column) report_date).map
      (fun c => finishWrite (buildNetAmountMap pivot_data)
        (scanHeaders ws net_rtr_column).lastDataCol c (writeHeader ws c net_rtr_column))

/-- The column the run writes to (exact-match column, or the placement
decision). -/
def placementCol (net_rtr_column report_date : String) (ws : Sheet) : Except Unit Nat :=
  match (scanHeaders ws net_rtr_column).netRtrCol with
  | some c => Except.ok c
  | none => choosePlacement (scanHeaders ws net_rtr_column) report_date

/-! ### Workbook and orchestrator (part_007 lines 84-539)

The orchestrator of `updatePortfolioWorkbookWithNetRtr`.  Collaborator
results are parameters: the pivot tables fetched from the backend, the bytes
read from the workbook path, the openpyxl load / save engine calls, and the
outcome of the user save dialog.  The debug-only resave of the unmodified
workbook (part_007 lines 403-422) has no observable effect and is omitted. -/

/-- `wb` as a name-indexed sheet list. -/
def Workbook := List (String × Sheet)

def wbGet (wb : Workbook) (name : String) : Option Sheet :=
  ((wb : List (String × Sheet)).find? (fun p => p.1 = name)).map (fun p => p.2)

def wbSet (wb : Workbook) (name : String) (ws : Sheet) : Workbook :=
  (wb : List (String × Sheet)).map (fun p => if p.1 = name then (name, ws) else p)

/-- The per-funder loop (part_007 lines 196-386): a missing sheet is skipped,
a Python exception aborts the whole run. -/
def processFunders (net_rtr_column report_date : String)
    (pivot_tables : List FunderPivotData) (wb : Workbook) : Except Unit Workbook :=
  pivot_tables.foldlM
    (fun wb' fp =>
      match wbGet wb' fp.sheet_name with
      | none => Except.ok wb'
      | some ws =>
        (applySheet net_rtr_column report_date fp.pivot_data ws).map
          (fun out => wbSet wb' fp.sheet_name out.1))
    wb

/-- The two leading ZIP magic bytes `0x50 0x4B` (`"PK"`). -/
def listStartsWithPK : List Nat → Bool
  | a :: b :: _ => a = 0x50 ∧ b = 0x4B
  | _ => false

/-- `reportDate.replace(/\//g, "-")` (part_007 line 479). -/
def slashToDash (s : String) : String :=
  String.mk (s.toList.map (fun ch => if ch = '/' then '-' else ch))

/-- Output filename (part_007 line 480). -/
def defaultFilename (portfolioName reportDate : String) : String :=
  portfolioName ++ "_Portfolio_Updated_" ++ slashToDash reportDate ++ ".xlsx"

/-- Observable collaborator interactions of one run. -/
inductive Ev where
  | readWorkbook
  | decodedWorkbook
  | wroteFile (path : String) (bytes : List Nat)
deriving DecidableEq

inductive UpdateError where
  | noPivotTables
  | invalidExcelInput
  | loadFailed
  | labelError
  | pythonError
  | saveCancelled
deriving DecidableEq

/-- User-facing message of each failure. -/
def updateErrorMessage : UpdateError → String
  | .noPivotTables => "No pivot tables found for the specified date"
  | .invalidExcelInput => "Invalid Excel file: Does not start with ZIP header"
  | .loadFailed => "Error loading workbook"
  | .labelError => "Unsupported date format"
  | .pythonError => "Python error"
  | .saveCancelled => "Save cancelled by user"

/-- `PyodideService.updatePortfolioWorkbookWithNetRtr` (part_007 lines
84-539).  Order of operations: empty pivot list aborts before the file read;
the input bytes are then read; the Python side rejects input bytes without
the ZIP magic; the workbook is decoded, the label generated, each funder
processed; the updated workbook is serialized, the output ZIP-magic check
only logs (lines 396-401 and 455-476) and the bytes go to the save dialog
and file write regardless. -/
def updatePortfolioWorkbookWithNetRtr
    (portfolioName reportDate : String)
    (pivotTables : List FunderPivotData)
    (fileBytes : List Nat)
    (loadWorkbook : List Nat → Option Workbook)
    (saveWorkbook : Workbook → List Nat)
    (saveDialog : String → Option String) :
    Except UpdateError (List Nat) × List Ev :=
  if pivotTables.length = 0 then (Except.error .noPivotTables, [])
  else
    let evs := [Ev.readWorkbook]
    if ¬ listStartsWithPK fileBytes then (Except.error .invalidExcelInput, evs)
    else
      match loadWorkbook fileBytes with
      | none => (Except.error .loadFailed, evs)
      | some wb =>
        let evs := evs ++ [Ev.decodedWorkbook]
        match generate_net_rtr_column reportDate with
        | none => (Except.error .labelError, evs)
        | some label =>
          match processFunders label reportDate pivotTables wb with
          | .error _ => (Except.error .pythonError, evs)
          | .ok wb' =>
            let outBytes := saveWorkbook wb'
            match saveDialog (defaultFilename portfolioName reportDate) with
            | none => (Except.error .saveCancelled, evs)
            | some p => (Except.ok outBytes, evs ++ [Ev.wroteFile p outBytes])

/-! ### Runtime provisioner (part_007 lines 22-79, 545-566)

The module-level singleton state of `PyodideService`.  JavaScript runs each
call to `initialize()` atomically up to the `return initPromise` (the async
IIFE suspends at its first await), so concurrent callers are a sequence of
atomic calls; promise and engine handles are modelled as identifiers and the
bootstrap side effect is counted at promise creation. -/

structure PyodideState where
  pyodideInstance : Option Nat
  isInitializing : Bool
  initPromise : Option Nat
  nextPromiseId : Nat
  bootstrapCount : Nat
deriving DecidableEq

inductive InitResult where
  | resolved (engine : Nat)
  | pending (promise : Nat)
deriving DecidableEq

def initialState : PyodideState := ⟨none, false, none, 0, 0⟩

/-- `PyodideService.initialize()` (lines 32-79) up to its return: an existing
instance is returned; an in-flight promise is returned; otherwise the flag is
raised, a fresh bootstrap promise is created and stored, and returned. -/
def svcInit (st : PyodideState) : PyodideState × InitResult :=
  match st.pyodideInstance with
  | some e => (st, .resolved e)
  | none =>
    if st.isInitializing ∧ st.initPromise.isSome then
      (st, .pending (st.initPromise.getD 0))
    else
      let p := st.nextPromiseId
      ({ st with isInitializing := true, initPromise := some p,
                 nextPromiseId := p + 1, bootstrapCount := st.bootstrapCount + 1 },
       .pending p)

/-- Successful completion of the bootstrap (lines 65-69): the instance is
stored and the flag lowered. -/
def svcResolve (st : PyodideState) (e : Nat) : PyodideState :=
  { st with pyodideInstance := some e, isInitializing := false }

/-- Failed bootstrap (catch block, lines 70-75): the flag is lowered, the
stored promise cleared, and the error rethrown to the caller. -/
def svcFail (st : PyodideState) : PyodideState :=
  { st with isInitializing := false, initPromise := none }

/-- A burst of sequential `initialize()` calls (the event-loop serialization
of concurrent callers, no completion in between), collecting every caller's
result. -/
def svcCalls (st : PyodideState) : Nat → PyodideState × List InitResult
  | 0 => (st, [])
  | n + 1 =>
    let (st1, r) := svcInit st
    let (st2, rs) := svcCalls st1 n
    (st2, r :: rs)

/-- Every result in a list is the given pending promise. -/
def allPending (p : Nat) (rs : List InitResult) : Bool :=
  rs.all (fun r => r = InitResult.pending p)

/-! ### Concrete fixtures -/

def pkBytes : List Nat := [0x50, 0x4B]

def strCell (s : String) : Cell := ⟨some (.vStr s), none, 0, 0, 0, 0⟩

def numCell (n : Int) : Cell := ⟨some (.vNum n), none, 0, 0, 0, 0⟩

/-- A small funder sheet: three headers in row 2, one data row, no
`"Funder Advance ID"` header (so the key column falls back to 5). -/
def sheetFix : Sheet where
  cells := fun r c =>
    if r = 2 ∧ c = 1 then strCell "ID"
    else if r = 2 ∧ c = 2 then strCell "Name"
    else if r = 2 ∧ c = 3 then strCell "Amt"
    else if r = 3 ∧ c = 1 then strCell "A1"
    else emptyCell
  maxRow := 3
  maxCol := 3
  colWidth := fun _ => none

def wbFix : Workbook := [("FunderX", sheetFix)]

/-- Pivot data whose advance id matches no row of `sheetFix`. -/
def pivotZero : List FunderPivotData :=
  [⟨"FunderX", "FunderX", [⟨"ZZZ", "M", 0, 0, 100⟩], "p"⟩]

/-- A run whose serializer emits bytes without the ZIP magic. -/
def c1run : Except UpdateError (List Nat) × List Ev :=
  updatePortfolioWorkbookWithNetRtr "Alpha" "2025-03-14" pivotZero pkBytes
    (fun _ => some wbFix) (fun _ => [0, 0]) (fun _ => some "out.xlsx")

/-- The workbook produced by the funder pass of the `c1run` fixture. -/
def c1wbOut : Workbook :=
  match processFunders "Net RTR 3/14/25" "2025-03-14" pivotZero wbFix with
  | .ok w => w
  | .error _ => []

/-- A run identical to `c1run` except that the serializer emits valid
ZIP-magic bytes. -/
def c10run : Except UpdateError (List Nat) × List Ev :=
  updatePortfolioWorkbookWithNetRtr "Alpha" "2025-03-14" pivotZero pkBytes
    (fun _ => some wbFix) (fun _ => pkBytes) (fun _ => some "out.xlsx")

/-! ### Characterization helpers for the scan and the writer -/

/-- The header of column `c` passes the exact-match test of the scan
(truthy, family prefix, and - after stripping - equal to the target). -/
def matchCol (s : Sheet) (target : String) (c : Nat) : Bool :=
  match truthyStr ((s.cells 2 c).value) with
  | some raw =>
    if startsWithStr "Net RTR" (pyStrip raw) then
      (if pyStrip raw = target then true else false)
    else false
  | none => false

/-- The header of column `c` counts as data for `last_data_col` (truthy and
non-empty after stripping). -/
def isDataCol (s : Sheet) (c : Nat) : Bool :=
  match truthyStr ((s.cells 2 c).value) with
  | some raw => if pyStrip raw = "" then false else true
  | none => false

/-- The family entry the scan appends for column `c`, if any. -/
def famEntry (s : Sheet) (c : Nat) : Option (Nat × String) :=
  match truthyStr ((s.cells 2 c).value) with
  | some raw =>
    if startsWithStr "Net RTR" (pyStrip raw) then some (c, pyStrip raw) else none
  | none => none

/-- The net amount row `r` matches, if any: the key cell must be truthy and
its stripped string must be a key of the lookup. -/
def rowAmt (m : List (String × Int)) (kCol : Nat) (s : Sheet) (r : Nat) : Option Int :=
  match truthyStr ((s.cells r kCol).value) with
  | some raw => dictLookup m (pyStrip raw)
  | none => none

/-- The stripped key string of row `r` (`str(cell.value).strip()` guarded by
truthiness). -/
def keyStr (s : Sheet) (kCol r : Nat) : Option String :=
  (truthyStr ((s.cells r kCol).value)).map pyStrip

/-- The cell produced by a matched write: the net amount, the currency mask,
and the styles of the reference cell of the same row. -/
def writtenCell (s : Sheet) (refCol r : Nat) (amt : Int) : Cell :=
  { value := some (.vNum amt), numFmt := some "$#,##0.00",
    font := (s.cells r refCol).font, fill := (s.cells r refCol).fill,
    border := (s.cells r refCol).border, alignment := (s.cells r refCol).alignment }

/-! ### Spec-side definitions (what the claims literally state) -/

/-- Row list the C6 claim describes: every data row up to and including the
last populated row, with no cap. -/
def dataRowListClaim (s : Sheet) : List Nat := List.range' 3 (s.maxRow + 1 - 3)

/-- The writer as the C6 claim describes it (uncapped row scan). -/
def writeDataRowsClaim (m : List (String × Int)) (kCol nCol refCol : Nat) (s : Sheet) :
    Sheet × Nat :=
  writeRowsGo m kCol nCol refCol (dataRowListClaim s) s

def labelOfTriple (t : Int × Int × Int) : String := netRtrLabelYMD t.1 t.2.1 t.2.2

/-- The placement decision as the C2 claim literally states it: probe only
the immediately preceding report period (7 days back), with its label formed
by the date-labeling rule itself; then max-family + 1; then last data
column + 1. -/
def locateSpecC2 (sc : ScanResult) (y m d : Int) : Nat :=
  match sc.netRtrColumns.find? (fun p => p.2 = labelOfTriple (subDays y m d 7)) with
  | some p => p.1 + 1
  | none =>
    if 0 < sc.lastNetRtrCol then sc.lastNetRtrCol + 1 else sc.lastDataCol + 1

/-! ### Further fixtures -/

/-- Family columns `Net RTR 2/28/25` (two weeks before 2025-03-14) at column
10 and `Net RTR 1/10/25` at column 12: the code inserts after column 10, the
claim as stated appends after column 12. -/
def sheetC2 : Sheet where
  cells := fun r c =>
    if r = 2 ∧ c = 1 then strCell "ID"
    else if r = 2 ∧ c = 10 then strCell "Net RTR 2/28/25"
    else if r = 2 ∧ c = 12 then strCell "Net RTR 1/10/25"
    else emptyCell
  maxRow := 2
  maxCol := 12
  colWidth := fun _ => none

def pivotC3 : List PivotTableData := [⟨"A1", "M", 0, 0, 500⟩]

/-- A sheet with stale data at (3, 4) under an empty header: the first run
places the new column at 4 without clearing, the second run clears it. -/
def sheetC3 : Sheet where
  cells := fun r c =>
    if r = 2 ∧ c = 1 then strCell "A"
    else if r = 2 ∧ c = 2 then strCell "B"
    else if r = 2 ∧ c = 3 then strCell "C"
    else if r = 3 ∧ c = 4 then numCell 999
    else emptyCell
  maxRow := 3
  maxCol := 4
  colWidth := fun _ => none

/-- A clean sheet for the idempotence witness: key column 5 holds `A1`, the
new column lands at 6. -/
def sheetC3w : Sheet where
  cells := fun r c =>
    if r = 2 ∧ c = 1 then strCell "ID"
    else if r = 2 ∧ c = 5 then strCell "Funder Advance ID"
    else if r = 3 ∧ c = 5 then strCell "A1"
    else emptyCell
  maxRow := 3
  maxCol := 5
  colWidth := fun _ => none

def c3wRun : Except Unit (Sheet × Nat) :=
  applySheet "Net RTR 3/14/25" "2025-03-14" pivotC3 sheetC3w

def c3wSheet : Sheet :=
  match c3wRun with
  | .ok p => p.1
  | .error _ => sheetC3w

def c3wCount : Nat :=
  match c3wRun with
  | .ok p => p.2
  | .error _ => 0

/-- A sheet whose last populated row is 1000: the matching key in row 1000
is beyond the 999-row cap of the data loop. -/
def sheetC6 : Sheet where
  cells := fun r c =>
    if r = 2 ∧ c = 5 then strCell "Funder Advance ID"
    else if r = 1000 ∧ c = 5 then strCell "A1"
    else emptyCell
  maxRow := 1000
  maxCol := 5
  colWidth := fun _ => none

/-- A sheet whose key cell carries surrounding whitespace. -/
def sheetC7 : Sheet where
  cells := fun r c =>
    if r = 3 ∧ c = 2 then strCell " A1 "
    else emptyCell
  maxRow := 3
  maxCol := 2
  colWidth := fun _ => none

/-! ## Theorems -/

/-! ### Basic facts -/

/-- Extensionality for sheets. -/
theorem Sheet.ext' {a b : Sheet} (hc : ∀ r c, a.cells r c = b.cells r c)
    (hr : a.maxRow = b.maxRow) (hm : a.maxCol = b.maxCol)
    (hw : ∀ c, a.colWidth c = b.colWidth c) : a = b := by
  cases a; cases b
  simp only [Sheet.mk.injEq]
  exact ⟨funext fun r => funext fun c => hc r c, hr, hm, funext hw⟩

example : generate_net_rtr_column "2025-01-17" = some "Net RTR 1/17/25" := by decide
example : generate_net_rtr_column "2023-06-02" = some "Net RTR 6/2" := by decide
example : generate_net_rtr_column "03/14/2025" = some "Net RTR 3/14/25" := by decide
example : generate_net_rtr_column "not a date" = none := by decide
example : subDays 2025 3 14 14 = (2025, 2, 28) := by decide

/-! ### The writer: one step -/

/-- An unmatched row (key cell falsy, or stripped key not in the lookup)
leaves sheet and count untouched. -/
theorem writeRowStep_of_none {m : List (String × Int)} {kCol nCol refCol : Nat}
    {s : Sheet} {r : Nat} (acc : Nat) (h : rowAmt m kCol s r = none) :
    writeRowStep m kCol nCol refCol (s, acc) r = (s, acc) := by
  unfold writeRowStep
  unfold rowAmt at h
  cases htr : truthyStr ((s.cells r kCol).value) with
  | none => simp [htr]
  | some raw =>
    rw [htr] at h
    simp only [] at h
    simp [htr, h]

/-- A matched row writes exactly `writtenCell` at `(r, nCol)`, bumps the
count, and extends the dimensions by the written coordinates. -/
theorem writeRowStep_of_some {m : List (String × Int)} {kCol nCol refCol : Nat}
    {s : Sheet} {r : Nat} (acc : Nat) {amt : Int} (h : rowAmt m kCol s r = some amt) :
    (writeRowStep m kCol nCol refCol (s, acc) r).2 = acc + 1 ∧
    (∀ r' q, (writeRowStep m kCol nCol refCol (s, acc) r).1.cells r' q =
      if r' = r ∧ q = nCol then writtenCell s refCol r amt else s.cells r' q) ∧
    (writeRowStep m kCol nCol refCol (s, acc) r).1.maxRow = max s.maxRow r ∧
    (writeRowStep m kCol nCol refCol (s, acc) r).1.maxCol = max s.maxCol nCol ∧
    (writeRowStep m kCol nCol refCol (s, acc) r).1.colWidth = s.colWidth := by
  unfold writeRowStep
  unfold rowAmt at h
  cases htr : truthyStr ((s.cells r kCol).value) with
  | none => rw [htr] at h; cases h
  | some raw =>
    rw [htr] at h
    simp only [] at h
    simp only [htr]
    cases hdl : dictLookup m (pyStrip raw) with
    | none => rw [hdl] at h; cases h
    | some amt' =>
      rw [hdl] at h
      injection h with h'
      subst h'
      simp only [hdl]
      refine ⟨by trivial, ?_, by trivial, by trivial, by trivial⟩
      intro r' q
      unfold copyStyle setCellFmt setCellValue writtenCell
      by_cases hrc : refCol = nCol
      · subst hrc
        by_cases h1 : r' = r ∧ q = refCol
        · obtain ⟨e1, e2⟩ := h1
          subst e1
          subst e2
          simp
        · simp [h1]
      · by_cases h1 : r' = r ∧ q = nCol
        · obtain ⟨e1, e2⟩ := h1
          subst e1
          subst e2
          simp [hrc]
        · simp [h1]

/-! ### The writer: the row loop -/

/-- Frame characterization of the row loop over a duplicate-free row list:
every matched listed row gets `writtenCell` (computed from the reference
sheet `s0` that agrees with the running sheet on the listed rows), everything
else is untouched, and the count grows by the number of matched listed
rows. -/
theorem writeRowsGo_frame (m : List (String × Int)) (kCol nCol refCol : Nat) :
    ∀ (rows : List Nat), rows.Nodup →
    ∀ (s0 s : Sheet) (acc : Nat),
    (∀ r ∈ rows, ∀ q, s.cells r q = s0.cells r q) →
    (∀ r' q, (rows.foldl (writeRowStep m kCol nCol refCol) (s, acc)).1.cells r' q =
        if r' ∈ rows ∧ q = nCol ∧ (rowAmt m kCol s0 r').isSome
        then writtenCell s0 refCol r' ((rowAmt m kCol s0 r').getD 0)
        else s.cells r' q) ∧
    (rows.foldl (writeRowStep m kCol nCol refCol) (s, acc)).2 =
      acc + (rows.filter (fun r => (rowAmt m kCol s0 r).isSome)).length := by
  intro rows
  induction rows with
  | nil =>
    intro _ s0 s acc _
    exact ⟨fun r' q => by simp, by simp⟩
  | cons r rest ih =>
    intro hnd s0 s acc hagree
    have hndr : rest.Nodup := (List.nodup_cons.mp hnd).2
    have hrnotin : r ∉ rest := (List.nodup_cons.mp hnd).1
    have hrowamt_eq : rowAmt m kCol s r = rowAmt m kCol s0 r := by
      unfold rowAmt
      rw [hagree r (List.mem_cons_self r rest) kCol]
    cases hA : rowAmt m kCol s0 r with
    | none =>
      have hstep : writeRowStep m kCol nCol refCol (s, acc) r = (s, acc) :=
        writeRowStep_of_none acc (by rw [hrowamt_eq, hA])
      have ihr := ih hndr s0 s acc (fun r' hr' q => hagree r' (List.mem_cons_of_mem _ hr') q)
      simp only [List.foldl_cons, hstep]
      refine ⟨?_, ?_⟩
      · intro r' q
        rw [ihr.1 r' q]
        by_cases h1 : r' ∈ rest ∧ q = nCol ∧ (rowAmt m kCol s0 r').isSome
        · rw [if_pos h1, if_pos ⟨List.mem_cons_of_mem _ h1.1, h1.2⟩]
        · rw [if_neg h1, if_neg ?_]
          rintro ⟨hm', hq, hs'⟩
          rcases List.mem_cons.mp hm' with h3 | h3
          · subst h3
            rw [hA] at hs'
            exact absurd hs' (by simp)
          · exact h1 ⟨h3, hq, hs'⟩
      · rw [ihr.2]
        have : List.filter (fun r0 => (rowAmt m kCol s0 r0).isSome) (r :: rest) =
            List.filter (fun r0 => (rowAmt m kCol s0 r0).isSome) rest := by
          simp [List.filter_cons, hA]
        rw [this]
    | some amt =>
      have hsome : rowAmt m kCol s r = some amt := by rw [hrowamt_eq, hA]
      obtain ⟨hcnt, hcells, _, _, _⟩ := writeRowStep_of_some acc hsome
      have hstep_pair : writeRowStep m kCol nCol refCol (s, acc) r =
          ((writeRowStep m kCol nCol refCol (s, acc) r).1, acc + 1) := by
        rw [← hcnt]
      have hwc : writtenCell s refCol r amt = writtenCell s0 refCol r amt := by
        unfold writtenCell
        rw [hagree r (List.mem_cons_self r rest) refCol]
      have hagree3 : ∀ r' ∈ rest, ∀ q,
          (writeRowStep m kCol nCol refCol (s, acc) r).1.cells r' q = s0.cells r' q := by
        intro r' hr' q
        rw [hcells r' q, if_neg (by rintro ⟨rfl, _⟩; exact hrnotin hr')]
        exact hagree r' (List.mem_cons_of_mem _ hr') q
      have ihr := ih hndr s0 (writeRowStep m kCol nCol refCol (s, acc) r).1 (acc + 1) hagree3
      simp only [List.foldl_cons]
      rw [hstep_pair]
      refine ⟨?_, ?_⟩
      · intro r' q
        rw [ihr.1 r' q]
        by_cases h1 : r' ∈ rest ∧ q = nCol ∧ (rowAmt m kCol s0 r').isSome
        · rw [if_pos h1, if_pos ⟨List.mem_cons_of_mem _ h1.1, h1.2⟩]
        · rw [if_neg h1, hcells r' q]
          by_cases h2 : r' = r ∧ q = nCol
          · obtain ⟨rfl, rfl⟩ := h2
            rw [if_pos ⟨rfl, rfl⟩,
                if_pos ⟨List.mem_cons_self r' rest, rfl, by rw [hA]; simp⟩]
            rw [hwc, hA]
            rfl
          · rw [if_neg h2, if_neg ?_]
            rintro ⟨hm', hq, hs'⟩
            rcases List.mem_cons.mp hm' with h3 | h3
            · exact h2 ⟨h3, hq⟩
            · exact h1 ⟨h3, hq, hs'⟩
      · rw [ihr.2]
        have : List.filter (fun r0 => (rowAmt m kCol s0 r0).isSome) (r :: rest) =
            r :: List.filter (fun r0 => (rowAmt m kCol s0 r0).isSome) rest := by
          simp [List.filter_cons, hA]
        rw [this, List.length_cons]
        omega

/-- Dimension stability of the row loop: writes within the current bounds do
not move `maxRow`, `maxCol` or the column widths. -/
theorem writeRowsGo_dims (m : List (String × Int)) (kCol nCol refCol : Nat) :
    ∀ (rows : List Nat) (s : Sheet) (acc : Nat),
    (∀ r ∈ rows, r ≤ s.maxRow) → nCol ≤ s.maxCol →
    (rows.foldl (writeRowStep m kCol nCol refCol) (s, acc)).1.maxRow = s.maxRow ∧
    (rows.foldl (writeRowStep m kCol nCol refCol) (s, acc)).1.maxCol = s.maxCol ∧
    ∀ q, (rows.foldl (writeRowStep m kCol nCol refCol) (s, acc)).1.colWidth q = s.colWidth q := by
  intro rows
  induction rows with
  | nil => intro s acc _ _; exact ⟨rfl, rfl, fun q => rfl⟩
  | cons r rest ih =>
    intro s acc hrows hcol
    cases hA : rowAmt m kCol s r with
    | none =>
      have hstep : writeRowStep m kCol nCol refCol (s, acc) r = (s, acc) :=
        writeRowStep_of_none acc hA
      simp only [List.foldl_cons, hstep]
      exact ih s acc (fun r' hr' => hrows r' (List.mem_cons_of_mem _ hr')) hcol
    | some amt =>
      obtain ⟨hcnt, _, hmr, hmc, hcw⟩ := writeRowStep_of_some acc hA
      have hstep_pair : writeRowStep m kCol nCol refCol (s, acc) r =
          ((writeRowStep m kCol nCol refCol (s, acc) r).1, acc + 1) := by
        rw [← hcnt]
      have hmr' : (writeRowStep m kCol nCol refCol (s, acc) r).1.maxRow = s.maxRow := by
        rw [hmr]
        exact Nat.max_eq_left (hrows r (List.mem_cons_self r rest))
      have hmc' : (writeRowStep m kCol nCol refCol (s, acc) r).1.maxCol = s.maxCol := by
        rw [hmc]
        exact Nat.max_eq_left hcol
      simp only [List.foldl_cons]
      rw [hstep_pair]
      have := ih (writeRowStep m kCol nCol refCol (s, acc) r).1 (acc + 1)
        (fun r' hr' => by rw [hmr']; exact hrows r' (List.mem_cons_of_mem _ hr'))
        (by rw [hmc']; exact hcol)
      refine ⟨by rw [this.1, hmr'], by rw [this.2.1, hmc'], fun q => by rw [this.2.2 q, hcw]⟩

/-! ### The clear loop -/

/-- Frame characterization of the clear loop over a duplicate-free row list,
with dimension stability. -/
theorem clearFold_spec (c : Nat) :
    ∀ (rows : List Nat), rows.Nodup →
    ∀ (s0 s : Sheet),
    (∀ r ∈ rows, ∀ q, s.cells r q = s0.cells r q) →
    (∀ r ∈ rows, r ≤ s.maxRow) → c ≤ s.maxCol →
    (∀ r' q, (rows.foldl (fun s' r => setCellValue s' r c none) s).cells r' q =
        if r' ∈ rows ∧ q = c then { s0.cells r' c with value := none } else s.cells r' q) ∧
    (rows.foldl (fun s' r => setCellValue s' r c none) s).maxRow = s.maxRow ∧
    (rows.foldl (fun s' r => setCellValue s' r c none) s).maxCol = s.maxCol ∧
    ∀ q, (rows.foldl (fun s' r => setCellValue s' r c none) s).colWidth q = s.colWidth q := by
  intro rows
  induction rows with
  | nil =>
    intro _ s0 s _ _ _
    exact ⟨fun r' q => by simp, rfl, rfl, fun q => rfl⟩
  | cons r rest ih =>
    intro hnd s0 s hagree hrows hcol
    have hndr : rest.Nodup := (List.nodup_cons.mp hnd).2
    have hrnotin : r ∉ rest := (List.nodup_cons.mp hnd).1
    have hcell : { s.cells r c with value := none } = { s0.cells r c with value := none } := by
      rw [hagree r (List.mem_cons_self r rest) c]
    have hagree1 : ∀ r' ∈ rest, ∀ q,
        (setCellValue s r c none).cells r' q = s0.cells r' q := by
      intro r' hr' q
      unfold setCellValue
      simp only []
      rw [if_neg (by rintro ⟨rfl, _⟩; exact hrnotin hr')]
      exact hagree r' (List.mem_cons_of_mem _ hr') q
    have hmr1 : (setCellValue s r c none).maxRow = s.maxRow :=
      Nat.max_eq_left (hrows r (List.mem_cons_self r rest))
    have hmc1 : (setCellValue s r c none).maxCol = s.maxCol := Nat.max_eq_left hcol
    have ihr := ih hndr s0 (setCellValue s r c none) hagree1
      (fun r' hr' => by rw [hmr1]; exact hrows r' (List.mem_cons_of_mem _ hr'))
      (by rw [hmc1]; exact hcol)
    simp only [List.foldl_cons]
    refine ⟨?_, by rw [ihr.2.1, hmr1], by rw [ihr.2.2.1, hmc1],
      fun q => by rw [ihr.2.2.2 q]; rfl⟩
    intro r' q
    rw [ihr.1 r' q]
    by_cases h1 : r' ∈ rest ∧ q = c
    · rw [if_pos h1, if_pos ⟨List.mem_cons_of_mem _ h1.1, h1.2⟩]
    · rw [if_neg h1]
      show (setCellValue s r c none).cells r' q = _
      unfold setCellValue
      simp only []
      by_cases h2 : r' = r ∧ q = c
      · rw [if_pos h2, if_pos ⟨by rw [h2.1]; exact List.mem_cons_self r rest, h2.2⟩]
        rw [h2.1]
        exact hcell
      · rw [if_neg h2, if_neg ?_]
        rintro ⟨hm', hq⟩
        rcases List.mem_cons.mp hm' with h3 | h3
        · exact h2 ⟨h3, hq⟩
        · exact h1 ⟨h3, hq⟩

/-- Characterization of `clearColumnData`: rows 3 up to and including the
last row of column `c` lose their value, everything else is untouched. -/
theorem clearColumnData_spec (s : Sheet) (c : Nat) (hc : c ≤ s.maxCol) :
    (∀ r' q, (clearColumnData s c).cells r' q =
        if 3 ≤ r' ∧ r' ≤ s.maxRow ∧ q = c
        then { s.cells r' c with value := none } else s.cells r' q) ∧
    (clearColumnData s c).maxRow = s.maxRow ∧
    (clearColumnData s c).maxCol = s.maxCol ∧
    ∀ q, (clearColumnData s c).colWidth q = s.colWidth q := by
  have hnd : (List.range' 3 (s.maxRow + 1 - 3)).Nodup := List.nodup_range' _ _
  have hb : ∀ r ∈ List.range' 3 (s.maxRow + 1 - 3), r ≤ s.maxRow := by
    intro r hr
    have := List.mem_range'_1.mp hr
    omega
  have h := clearFold_spec c (List.range' 3 (s.maxRow + 1 - 3)) hnd s s
    (fun _ _ _ => rfl) hb hc
  refine ⟨?_, h.2.1, h.2.2.1, h.2.2.2⟩
  intro r' q
  rw [(show clearColumnData s c =
    (List.range' 3 (s.maxRow + 1 - 3)).foldl (fun s' r => setCellValue s' r c none) s from rfl)]
  rw [h.1 r' q]
  by_cases h1 : r' ∈ List.range' 3 (s.maxRow + 1 - 3) ∧ q = c
  · rw [if_pos h1, if_pos ?_]
    have := List.mem_range'_1.mp h1.1
    exact ⟨by omega, by omega, h1.2⟩
  · rw [if_neg h1, if_neg ?_]
    rintro ⟨h3, h4, h5⟩
    exact h1 ⟨List.mem_range'_1.mpr ⟨h3, by omega⟩, h5⟩

/-! ### The header scan -/

/-- Field lemma: the exact-match column after one scan step. -/
theorem scanStep_netRtrCol (s : Sheet) (target : String) (acc : ScanResult) (col : Nat) :
    (scanStep s target acc col).netRtrCol =
      if matchCol s target col then some col else acc.netRtrCol := by
  unfold scanStep matchCol
  cases htr : truthyStr ((s.cells 2 col).value) with
  | none => simp
  | some raw =>
    by_cases hd : pyStrip raw = ""
    · have h1 : startsWithStr "Net RTR" "" = false := by decide
      simp [htr, hd, h1]
    · by_cases h1 : startsWithStr "Net RTR" (pyStrip raw)
      · by_cases h2 : pyStrip raw = target
        · rw [h2] at h1 hd
          simp [htr, h1, h2, hd]
        · simp [htr, hd, h1, h2]
      · simp [htr, hd, h1]

/-- Field lemma: the family columns after one scan step. -/
theorem scanStep_netRtrColumns (s : Sheet) (target : String) (acc : ScanResult) (col : Nat) :
    (scanStep s target acc col).netRtrColumns =
      acc.netRtrColumns ++ (famEntry s col).toList := by
  unfold scanStep famEntry
  cases htr : truthyStr ((s.cells 2 col).value) with
  | none => simp
  | some raw =>
    by_cases hd : pyStrip raw = ""
    · have h1 : startsWithStr "Net RTR" "" = false := by decide
      simp [htr, hd, h1]
    · by_cases h1 : startsWithStr "Net RTR" (pyStrip raw)
      · by_cases h2 : pyStrip raw = target
        · rw [h2] at h1 hd
          simp [htr, h1, h2, hd]
        · simp [htr, hd, h1, h2]
      · simp [htr, hd, h1]

/-- Field lemma: the greatest family column after one scan step. -/
theorem scanStep_lastNetRtrCol (s : Sheet) (target : String) (acc : ScanResult) (col : Nat) :
    (scanStep s target acc col).lastNetRtrCol =
      if (famEntry s col).isSome then max acc.lastNetRtrCol col else acc.lastNetRtrCol := by
  unfold scanStep famEntry
  cases htr : truthyStr ((s.cells 2 col).value) with
  | none => simp
  | some raw =>
    by_cases hd : pyStrip raw = ""
    · have h1 : startsWithStr "Net RTR" "" = false := by decide
      simp [htr, hd, h1]
    · by_cases h1 : startsWithStr "Net RTR" (pyStrip raw)
      · by_cases h2 : pyStrip raw = target
        · rw [h2] at h1 hd
          simp [htr, h1, h2, hd]
        · simp [htr, hd, h1, h2]
      · simp [htr, hd, h1]

/-- Field lemma: the last data column after one scan step. -/
theorem scanStep_lastDataCol (s : Sheet) (target : String) (acc : ScanResult) (col : Nat) :
    (scanStep s target acc col).lastDataCol =
      if isDataCol s col then col else acc.lastDataCol := by
  unfold scanStep isDataCol
  cases htr : truthyStr ((s.cells 2 col).value) with
  | none => simp
  | some raw =>
    by_cases hd : pyStrip raw = ""
    · have h1 : startsWithStr "Net RTR" "" = false := by decide
      simp [htr, hd, h1]
    · by_cases h1 : startsWithStr "Net RTR" (pyStrip raw)
      · by_cases h2 : pyStrip raw = target
        · rw [h2] at h1 hd
          simp [htr, h1, h2, hd]
        · simp [htr, hd, h1, h2]
      · simp [htr, hd, h1]

/-- The exact-match column of a scan: the last matching column, else the
initial accumulator value. -/
theorem scanFold_netRtrCol (s : Sheet) (target : String) :
    ∀ (cols : List Nat) (acc : ScanResult),
    (cols.foldl (scanStep s target) acc).netRtrCol =
      (cols.reverse.find? (fun c => matchCol s target c)).or acc.netRtrCol := by
  intro cols
  induction cols with
  | nil => intro acc; simp
  | cons c cs ih =>
    intro acc
    rw [List.foldl_cons, ih, List.reverse_cons, List.find?_append]
    rw [scanStep_netRtrCol]
    cases hf : cs.reverse.find? (fun c => matchCol s target c) with
    | some x => simp [hf]
    | none =>
      by_cases h : matchCol s target c <;> simp [hf, h, List.find?]

/-- Family-column membership comes from a `famEntry` of a scanned column. -/
theorem scanFold_mem_netRtrColumns (s : Sheet) (target : String) :
    ∀ (cols : List Nat) (acc : ScanResult) (col : Nat) (str : String),
    (col, str) ∈ (cols.foldl (scanStep s target) acc).netRtrColumns →
    (col, str) ∈ acc.netRtrColumns ∨ (col ∈ cols ∧ famEntry s col = some (col, str)) := by
  intro cols
  induction cols with
  | nil => intro acc col str h; exact Or.inl h
  | cons c cs ih =>
    intro acc col str h
    rw [List.foldl_cons] at h
    rcases ih (scanStep s target acc c) col str h with h1 | h1
    · rw [scanStep_netRtrColumns] at h1
      rcases List.mem_append.mp h1 with h2 | h2
      · exact Or.inl h2
      · cases hfe : famEntry s c with
        | none => rw [hfe] at h2; cases h2
        | some p =>
          rw [hfe] at h2
          simp only [Option.toList_some, List.mem_singleton] at h2
          have hp : p = (c, p.2) := by
            unfold famEntry at hfe
            cases htr : truthyStr ((s.cells 2 c).value) with
            | none => rw [htr] at hfe; cases hfe
            | some raw =>
              rw [htr] at hfe
              simp only [] at hfe
              by_cases h1' : startsWithStr "Net RTR" (pyStrip raw)
              · rw [if_pos h1'] at hfe
                injection hfe with hfe'
                rw [← hfe']
              · rw [if_neg h1'] at hfe; cases hfe
          have h3 : (col, str) = (c, p.2) := h2.trans hp
          have hcol : col = c := congrArg Prod.fst h3
          have hstr : str = p.2 := congrArg Prod.snd h3
          right
          refine ⟨?_, ?_⟩
          · rw [hcol]; exact List.mem_cons_self c cs
          · rw [hcol, hfe, hp, ← hstr]
    · exact Or.inr ⟨List.mem_cons_of_mem _ h1.1, h1.2⟩

/-- Membership in the family columns is preserved along the fold. -/
theorem scanFold_columns_mono (s : Sheet) (target : String) :
    ∀ (cols : List Nat) (acc : ScanResult) (x : Nat × String),
    x ∈ acc.netRtrColumns → x ∈ (cols.foldl (scanStep s target) acc).netRtrColumns := by
  intro cols
  induction cols with
  | nil => intro acc x h; exact h
  | cons c cs ih =>
    intro acc x h
    rw [List.foldl_cons]
    apply ih
    rw [scanStep_netRtrColumns]
    exact List.mem_append_left _ h

/-- The greatest family column is either the initial value or a member of
the collected family columns. -/
theorem scanFold_lastNetRtr_mem (s : Sheet) (target : String) :
    ∀ (cols : List Nat) (acc : ScanResult),
    (cols.foldl (scanStep s target) acc).lastNetRtrCol = acc.lastNetRtrCol ∨
    ∃ str, ((cols.foldl (scanStep s target) acc).lastNetRtrCol, str) ∈
      (cols.foldl (scanStep s target) acc).netRtrColumns := by
  intro cols
  induction cols with
  | nil => intro acc; exact Or.inl rfl
  | cons c cs ih =>
    intro acc
    rw [List.foldl_cons]
    rcases ih (scanStep s target acc c) with h1 | h1
    · rw [h1, scanStep_lastNetRtrCol]
      cases hfe : famEntry s c with
      | none => simp [hfe]
      | some p =>
        simp only [hfe, Option.isSome_some, if_pos]
        rcases Nat.le_total c acc.lastNetRtrCol with hle | hle
        · rw [Nat.max_eq_left hle]
          exact Or.inl rfl
        · rw [Nat.max_eq_right hle]
          right
          have hp : p = (c, p.2) := by
            unfold famEntry at hfe
            cases htr : truthyStr ((s.cells 2 c).value) with
            | none => rw [htr] at hfe; cases hfe
            | some raw =>
              rw [htr] at hfe
              simp only [] at hfe
              by_cases h1' : startsWithStr "Net RTR" (pyStrip raw)
              · rw [if_pos h1'] at hfe
                injection hfe with hfe'
                rw [← hfe']
              · rw [if_neg h1'] at hfe; cases hfe
          refine ⟨p.2, scanFold_columns_mono s target cs _ _ ?_⟩
          rw [scanStep_netRtrColumns, hfe]
          apply List.mem_append_right
          rw [hp]
          simp
    · exact Or.inr h1

/-- Every scanned data column bounds the final `last_data_col` from below
(the scan runs left to right over ascending columns). -/
theorem scanFold_lastData_ge (s : Sheet) (target : String) :
    ∀ (n : Nat) (col : Nat), col ∈ List.range' 1 n → isDataCol s col = true →
      col ≤ ((List.range' 1 n).foldl (scanStep s target) ⟨none, [], 0, 1⟩).lastDataCol := by
  intro n
  induction n with
  | zero => intro col h; cases h
  | succ k ih =>
    intro col hmem hdata
    have hsplit : List.range' 1 (k + 1) = List.range' 1 k ++ [1 + k] := by
      have := @List.range'_concat 1 1 k
      simpa using this
    rw [hsplit, List.foldl_append]
    simp only [List.foldl_cons, List.foldl_nil]
    rw [scanStep_lastDataCol]
    rw [hsplit] at hmem
    rcases List.mem_append.mp hmem with h1 | h1
    · have hcol := List.mem_range'_1.mp h1
      by_cases hd : isDataCol s (1 + k)
      · rw [if_pos hd]; omega
      · rw [if_neg hd]; exact ih col h1 hdata
    · have : col = 1 + k := List.mem_singleton.mp h1
      rw [← this, if_pos (by rw [← this] at *; exact hdata)]

/-- The exact-match column lies in the scanned range and satisfies the
match test. -/
theorem scanHeaders_netRtrCol_some (s : Sheet) (target : String) (c : Nat)
    (h : (scanHeaders s target).netRtrCol = some c) :
    c ∈ List.range' 1 s.maxCol ∧ matchCol s target c = true := by
  unfold scanHeaders at h
  rw [scanFold_netRtrCol] at h
  have h' : (List.range' 1 s.maxCol).reverse.find? (fun c => matchCol s target c) = some c := by
    cases hf : (List.range' 1 s.maxCol).reverse.find? (fun c => matchCol s target c) with
    | none => rw [hf] at h; cases h
    | some x => rw [hf] at h; simpa using h
  exact ⟨List.mem_reverse.mp (List.mem_of_find?_eq_some h'), List.find?_some h'⟩

/-- When no scanned column matches exactly, the scan records no exact
column. -/
theorem scanHeaders_netRtrCol_none (s : Sheet) (target : String)
    (h : (scanHeaders s target).netRtrCol = none) :
    ∀ col ∈ List.range' 1 s.maxCol, ¬ matchCol s target col = true := by
  unfold scanHeaders at h
  rw [scanFold_netRtrCol] at h
  intro col hmem
  cases hf : (List.range' 1 s.maxCol).reverse.find? (fun c => matchCol s target c) with
  | some x => rw [hf] at h; cases h
  | none =>
    have := List.find?_eq_none.mp hf col (List.mem_reverse.mpr hmem)
    simpa using this

/-- When exactly one scanned column matches, the scan finds it. -/
theorem scanHeaders_netRtrCol_unique (s : Sheet) (target : String) (c : Nat)
    (hc : c ∈ List.range' 1 s.maxCol)
    (h : ∀ col ∈ List.range' 1 s.maxCol, matchCol s target col = true ↔ col = c) :
    (scanHeaders s target).netRtrCol = some c := by
  unfold scanHeaders
  rw [scanFold_netRtrCol]
  have hfind : (List.range' 1 s.maxCol).reverse.find? (fun col => matchCol s target col) = some c := by
    cases hf : (List.range' 1 s.maxCol).reverse.find? (fun col => matchCol s target col) with
    | none =>
      exfalso
      have := List.find?_eq_none.mp hf c (List.mem_reverse.mpr hc)
      exact this ((h c hc).mpr rfl)
    | some x =>
      have hx := List.find?_some hf
      have hxmem := List.mem_reverse.mp (List.mem_of_find?_eq_some hf)
      rw [(h x hxmem).mp hx]
  rw [hfind]
  rfl

/-- The scan fold only looks at the values of row 2. -/
theorem scanFold_congr (s t : Sheet) (target : String) :
    ∀ (cols : List Nat) (acc : ScanResult),
    (∀ col ∈ cols, (s.cells 2 col).value = (t.cells 2 col).value) →
    cols.foldl (scanStep s target) acc = cols.foldl (scanStep t target) acc := by
  intro cols
  induction cols with
  | nil => intro acc _; rfl
  | cons c cs ih =>
    intro acc h
    rw [List.foldl_cons, List.foldl_cons]
    have hstep : scanStep s target acc c = scanStep t target acc c := by
      unfold scanStep
      rw [h c (List.mem_cons_self c cs)]
    rw [hstep]
    exact ih _ (fun col hcol => h col (List.mem_cons_of_mem _ hcol))

/-- Scans of sheets that agree on row 2 and on `maxCol` agree. -/
theorem scanHeaders_congr (s t : Sheet) (target : String) (hmc : s.maxCol = t.maxCol)
    (h : ∀ col, (s.cells 2 col).value = (t.cells 2 col).value) :
    scanHeaders s target = scanHeaders t target := by
  unfold scanHeaders
  rw [hmc]
  exact scanFold_congr s t target _ _ (fun col _ => h col)

/-- Pointwise-equal predicates find the same elements. -/
theorem find?_ext {α : Type} (p q : α → Bool) :
    ∀ (l : List α), (∀ a ∈ l, p a = q a) → l.find? p = l.find? q := by
  intro l
  induction l with
  | nil => intro _; rfl
  | cons a as ih =>
    intro h
    rw [List.find?_cons, List.find?_cons, h a (List.mem_cons_self a as)]
    cases hq : q a with
    | true => rfl
    | false => exact ih (fun x hx => h x (List.mem_cons_of_mem _ hx))

/-- The key-column search only looks at the values of row 2 and `maxCol`. -/
theorem findKeyCol_congr (s t : Sheet) (hmc : s.maxCol = t.maxCol)
    (h : ∀ col, (s.cells 2 col).value = (t.cells 2 col).value) :
    findKeyCol s = findKeyCol t := by
  unfold findKeyCol
  rw [hmc]
  have := find?_ext
    (fun col => match truthyStr ((s.cells 2 col).value) with
      | some raw => containsSub "Funder Advance ID" raw
      | none => false)
    (fun col => match truthyStr ((t.cells 2 col).value) with
      | some raw => containsSub "Funder Advance ID" raw
      | none => false)
    (List.range' 1 (min t.maxCol 19)) (fun col _ => by simp only []; rw [h col])
  rw [this]

/-- A match entails a data column (the target of an exact match is a
non-empty header). -/
theorem isDataCol_of_matchCol (s : Sheet) (target : String) (col : Nat)
    (h : matchCol s target col = true) (htarget : target ≠ "") :
    isDataCol s col = true := by
  unfold matchCol at h
  unfold isDataCol
  cases htr : truthyStr ((s.cells 2 col).value) with
  | none => rw [htr] at h; cases h
  | some raw =>
    rw [htr] at h
    simp only [] at h
    simp only []
    by_cases h1 : startsWithStr "Net RTR" (pyStrip raw)
    · rw [if_pos h1] at h
      by_cases h2 : pyStrip raw = target
      · rw [if_neg (by rw [h2]; exact htarget)]
      · rw [if_neg h2] at h; cases h
    · rw [if_neg h1] at h; cases h

/-- A family entry entails a data column (family headers start with the
non-empty prefix `Net RTR`). -/
theorem isDataCol_of_famEntry (s : Sheet) (col : Nat) (p : Nat × String)
    (h : famEntry s col = some p) : isDataCol s col = true := by
  unfold famEntry at h
  unfold isDataCol
  cases htr : truthyStr ((s.cells 2 col).value) with
  | none => rw [htr] at h; cases h
  | some raw =>
    rw [htr] at h
    simp only [] at h
    simp only []
    by_cases h1 : startsWithStr "Net RTR" (pyStrip raw)
    · rw [if_neg ?_]
      intro he
      rw [he] at h1
      exact absurd h1 (by decide)
    · rw [if_neg h1] at h; cases h

/-- A successful previous-week search returns one past a family column. -/
theorem searchWeeksGo_mem (fam : List (Nat × String)) (y m d : Int) :
    ∀ (fuel w : Nat) (x : Nat), searchWeeksGo fam y m d fuel w = some x →
    ∃ p, p ∈ fam ∧ x = p.1 + 1 := by
  intro fuel
  induction fuel with
  | zero => intro w x h; cases h
  | succ k ih =>
    intro w x h
    unfold searchWeeksGo at h
    cases hf : fam.find? (fun p => p.2 = prevColName y m d w) with
    | some p =>
      rw [hf] at h
      injection h with h'
      exact ⟨p, List.mem_of_find?_eq_some hf, h'.symm⟩
    | none =>
      rw [hf] at h
      exact ih (w + 1) x h

/-- The previous-week loop equals a first-success search over weeks
1, 2, 3, 4. -/
theorem searchWeeksFrom_eq_findSome (fam : List (Nat × String)) (y m d : Int) :
    searchWeeksFrom fam y m d 1 =
      ([1, 2, 3, 4].findSome? fun w =>
        (fam.find? (fun p => p.2 = prevColName y m d w)).map (fun p => p.1 + 1)) := by
  have e1 : searchWeeksFrom fam y m d 1 = searchWeeksGo fam y m d 4 1 := rfl
  rw [e1]
  cases h1 : fam.find? (fun p => p.2 = prevColName y m d 1) with
  | some p => simp [searchWeeksGo, List.findSome?_cons, h1]
  | none =>
    cases h2 : fam.find? (fun p => p.2 = prevColName y m d 2) with
    | some p => simp [searchWeeksGo, List.findSome?_cons, h1, h2]
    | none =>
      cases h3 : fam.find? (fun p => p.2 = prevColName y m d 3) with
      | some p => simp [searchWeeksGo, List.findSome?_cons, h1, h2, h3]
      | none =>
        cases h4 : fam.find? (fun p => p.2 = prevColName y m d 4) with
        | some p => simp [searchWeeksGo, List.findSome?_cons, h1, h2, h3, h4]
        | none => simp [searchWeeksGo, List.findSome?_cons, h1, h2, h3, h4]

/-- Characterization of `writeDataRows` (the data-row loop run on its own
sheet). -/
theorem writeDataRows_spec (m : List (String × Int)) (kCol nCol refCol : Nat) (s : Sheet) :
    (∀ r' q, (writeDataRows m kCol nCol refCol s).1.cells r' q =
        if r' ∈ dataRowList s ∧ q = nCol ∧ (rowAmt m kCol s r').isSome
        then writtenCell s refCol r' ((rowAmt m kCol s r').getD 0)
        else s.cells r' q) ∧
    (writeDataRows m kCol nCol refCol s).2 =
      ((dataRowList s).filter (fun r => (rowAmt m kCol s r).isSome)).length := by
  have h := writeRowsGo_frame m kCol nCol refCol (dataRowList s)
    (List.nodup_range' _ _) s s 0 (fun _ _ _ => rfl)
  refine ⟨h.1, ?_⟩
  have h2 := h.2
  rw [Nat.zero_add] at h2
  exact h2

/-- Characterization of the claim-side uncapped writer. -/
theorem writeDataRowsClaim_spec (m : List (String × Int)) (kCol nCol refCol : Nat) (s : Sheet) :
    (∀ r' q, (writeDataRowsClaim m kCol nCol refCol s).1.cells r' q =
        if r' ∈ dataRowListClaim s ∧ q = nCol ∧ (rowAmt m kCol s r').isSome
        then writtenCell s refCol r' ((rowAmt m kCol s r').getD 0)
        else s.cells r' q) ∧
    (writeDataRowsClaim m kCol nCol refCol s).2 =
      ((dataRowListClaim s).filter (fun r => (rowAmt m kCol s r).isSome)).length := by
  have h := writeRowsGo_frame m kCol nCol refCol (dataRowListClaim s)
    (List.nodup_range' _ _) s s 0 (fun _ _ _ => rfl)
  refine ⟨h.1, ?_⟩
  have h2 := h.2
  rw [Nat.zero_add] at h2
  exact h2

/-- The lookup never contains the Totals sentinel. -/
theorem buildNetAmountMap_totals_none (pd : List PivotTableData) :
    dictLookup (buildNetAmountMap pd) "Totals" = none := by
  have gen : ∀ (l : List PivotTableData) (acc : List (String × Int)),
      dictLookup acc "Totals" = none →
      dictLookup
        (l.foldl (fun m row =>
          if row.advance_id ≠ "Totals" then dictInsert m row.advance_id row.net_amount else m) acc)
        "Totals" = none := by
    intro l
    induction l with
    | nil => intro acc h; exact h
    | cons row rest ih =>
      intro acc h
      rw [List.foldl_cons]
      by_cases hid : row.advance_id ≠ "Totals"
      · rw [if_pos hid]
        apply ih
        have h' : acc.find? (fun p => p.1 = "Totals") = none := by
          unfold dictLookup at h
          cases hcc : acc.find? (fun p => p.1 = "Totals") with
          | none => rfl
          | some p => rw [hcc] at h; cases h
        unfold dictInsert
        by_cases hmem : (acc.find? (fun p => p.1 = row.advance_id)).isSome
        · rw [if_pos hmem]
          unfold dictLookup
          cases hf2 : (acc.map (fun p =>
              if p.1 = row.advance_id then (row.advance_id, row.net_amount) else p)).find?
              (fun p => p.1 = "Totals") with
          | none => rfl
          | some p =>
            exfalso
            have hpmem := List.mem_of_find?_eq_some hf2
            have hpt : p.1 = "Totals" := by
              have := List.find?_some hf2
              simpa using this
            rcases List.mem_map.mp hpmem with ⟨p0, hp0mem, hp0eq⟩
            by_cases hc : p0.1 = row.advance_id
            · rw [if_pos hc] at hp0eq
              apply hid
              rw [← hpt, ← hp0eq]
            · rw [if_neg hc] at hp0eq
              have hnone := List.find?_eq_none.mp h' p0 hp0mem
              apply hnone
              simp [hp0eq, hpt]
        · rw [if_neg hmem]
          unfold dictLookup
          rw [List.find?_append, h']
          have : ([(row.advance_id, row.net_amount)] : List (String × Int)).find?
              (fun p => p.1 = "Totals") = none := by
            rw [List.find?_eq_none]
            intro p hp
            rw [List.mem_singleton.mp hp]
            simpa using hid
          rw [this]
          rfl
      · rw [if_neg hid]
        exact ih acc h
  exact gen pd [] rfl

/-! ### Claim C2 -/

/-- C2 counterexample: the claim states that when no exact header match
exists, the locator first probes only the immediately preceding period, with
its label derived by the date-labeling rule, and otherwise appends after the
max family column.  On `sheetC2` (family columns at 10 for two weeks back
and at 12), the claim-as-stated procedure (`locateSpecC2`) places at 13,
while the code probes up to four weeks back (hard-coded `/25` labels), finds
the two-weeks-back column at 10, and places at 11. -/
theorem C2_counterexample :
    generate_net_rtr_column "2025-03-14" = some "Net RTR 3/14/25" ∧
    choosePlacement (scanHeaders sheetC2 "Net RTR 3/14/25") "2025-03-14" = Except.ok 11 ∧
    locateSpecC2 (scanHeaders sheetC2 "Net RTR 3/14/25") 2025 3 14 = 13 ∧
    (11 : Nat) ≠ 13 := by
  exact ⟨by decide, rfl, by decide, by decide⟩

/-- C2 amended: when no column matches exactly and the report date parses as
`YYYY-MM-DD` into a valid date, the placement is: the first success, for
weeks-back 1, 2, 3, 4 in order, of finding the label `Net RTR {m}/{d}/25` of
that prior Friday among the family columns (first such column `C`, placing
at `C + 1`); else `(max family column) + 1` when a family column exists;
else `(last data column) + 1`.  (For `MM/DD/YYYY` input the prior-period
probe is skipped entirely, and the prior labels carry a hard-coded `/25`
suffix rather than the date-labeling rule.) -/
theorem C2_amended_placement (s : Sheet) (target rd : String) (sy sm sd0 : String)
    (y m d : Int)
    (hsplit : chSplit '-' rd = [sy, sm, sd0])
    (hy : pyInt sy = some y) (hm : pyInt sm = some m) (hd : pyInt sd0 = some d)
    (hvalid : validDate y m d = true) :
    choosePlacement (scanHeaders s target) rd =
      Except.ok
        (match [1, 2, 3, 4].findSome? (fun w =>
            ((scanHeaders s target).netRtrColumns.find?
              (fun p => p.2 = prevColName y m d w)).map (fun p => p.1 + 1)) with
         | some c => c
         | none =>
           if 0 < (scanHeaders s target).lastNetRtrCol
           then (scanHeaders s target).lastNetRtrCol + 1
           else (scanHeaders s target).lastDataCol + 1) := by
  unfold choosePlacement findPrior
  rw [hsplit]
  have g0 : ([sy, sm, sd0] : List String).getD 0 "" = sy := rfl
  have g1 : ([sy, sm, sd0] : List String).getD 1 "" = sm := rfl
  have g2 : ([sy, sm, sd0] : List String).getD 2 "" = sd0 := rfl
  rw [if_pos (show ([sy, sm, sd0] : List String).length = 3 from rfl), g0, g1, g2,
    hy, hm, hd]
  simp only []
  rw [if_pos hvalid]
  rw [searchWeeksFrom_eq_findSome]
  cases hres : [1, 2, 3, 4].findSome? (fun w =>
      ((scanHeaders s target).netRtrColumns.find?
        (fun p => p.2 = prevColName y m d w)).map (fun p => p.1 + 1)) with
  | some c0 => simp [Bind.bind, Except.bind]
  | none =>
    by_cases hlast : 0 < (scanHeaders s target).lastNetRtrCol <;>
      simp [Bind.bind, Except.bind, hlast]

/-- C2 witness: the amended placement applied to `sheetC2` gives column
11. -/
theorem C2_amended_placement_witness :
    choosePlacement (scanHeaders sheetC2 "Net RTR 3/14/25") "2025-03-14" = Except.ok 11 := by
  have h := C2_amended_placement sheetC2 "Net RTR 3/14/25" "2025-03-14" "2025" "03" "14"
    2025 3 14 (by decide) (by decide) (by decide) (by decide) (by decide)
  exact h.trans (by rfl)

/-! ### Claim C6 -/

/-- C6 counterexample: the claim states the writer scans every data row up
to and including the last populated row.  The code caps the scan at row 999
(`range(3, min(ws.max_row + 1, 1000))`): on a sheet whose last populated row
is 1000 with a matching key there, the claim-side writer fills the cell and
counts one update, the code-side writer leaves the cell empty and counts
zero. -/
theorem C6_counterexample :
    sheetC6.maxRow = 1000 ∧
    rowAmt (buildNetAmountMap pivotC3) 5 sheetC6 1000 = some 500 ∧
    ((writeDataRows (buildNetAmountMap pivotC3) 5 6 7 sheetC6).1.cells 1000 6).value = none ∧
    (writeDataRows (buildNetAmountMap pivotC3) 5 6 7 sheetC6).2 = 0 ∧
    ((writeDataRowsClaim (buildNetAmountMap pivotC3) 5 6 7 sheetC6).1.cells 1000 6).value =
      some (Val.vNum 500) ∧
    (writeDataRowsClaim (buildNetAmountMap pivotC3) 5 6 7 sheetC6).2 = 1 := by
  have hlist : dataRowList sheetC6 = List.range' 3 997 := rfl
  have hlistc : dataRowListClaim sheetC6 = List.range' 3 998 := rfl
  have hra : rowAmt (buildNetAmountMap pivotC3) 5 sheetC6 1000 = some 500 := by decide
  have hnone : ∀ r ∈ List.range' 3 997,
      (rowAmt (buildNetAmountMap pivotC3) 5 sheetC6 r).isSome = false := by
    intro r hr
    have hb := List.mem_range'_1.mp hr
    have hcell : sheetC6.cells r 5 = emptyCell := by
      show (if r = 2 ∧ (5 : Nat) = 5 then _
        else if r = 1000 ∧ (5 : Nat) = 5 then _ else emptyCell) = emptyCell
      rw [if_neg (by omega), if_neg (by omega)]
    unfold rowAmt
    rw [hcell]
    rfl
  refine ⟨rfl, hra, ?_, ?_, ?_, ?_⟩
  · rw [(writeDataRows_spec (buildNetAmountMap pivotC3) 5 6 7 sheetC6).1 1000 6,
      if_neg ?_]
    · rfl
    · rw [hlist]
      rintro ⟨hmem, -, -⟩
      have := List.mem_range'_1.mp hmem
      omega
  · rw [(writeDataRows_spec (buildNetAmountMap pivotC3) 5 6 7 sheetC6).2, hlist]
    rw [List.filter_eq_nil_iff.mpr (fun r hr => by rw [hnone r hr]; simp)]
    rfl
  · rw [(writeDataRowsClaim_spec (buildNetAmountMap pivotC3) 5 6 7 sheetC6).1 1000 6, hra,
      if_pos ⟨by rw [hlistc]; exact List.mem_range'_1.mpr ⟨by omega, by omega⟩, rfl, rfl⟩]
    rfl
  · rw [(writeDataRowsClaim_spec (buildNetAmountMap pivotC3) 5 6 7 sheetC6).2, hlistc]
    have hsplit : List.range' 3 998 = List.range' 3 997 ++ [1000] := by
      have := @List.range'_concat 1 3 997
      simpa using this
    rw [hsplit, List.filter_append]
    rw [List.filter_eq_nil_iff.mpr (fun r hr => by rw [hnone r hr]; simp)]
    rw [show List.filter (fun r => (rowAmt (buildNetAmountMap pivotC3) 5 sheetC6 r).isSome)
      [1000] = [1000] from by rw [List.filter_cons, hra]; rfl]
    rfl

/-- C6 amended: the row matcher and writer scans rows 3 up to and including
`min(last populated row, 999)` - a hard 999-row safety cap, not the full
sheet - reading the key cell of each scanned row and, on a lookup match,
writing the net amount with the currency mask and the copied reference-cell
style into the placement column, incrementing the count once per written
row; all other cells are untouched. -/
theorem C6_amended_row_scan (m : List (String × Int)) (kCol nCol refCol : Nat) (s : Sheet) :
    dataRowList s = List.range' 3 (min (s.maxRow + 1) 1000 - 3) ∧
    (writeDataRows m kCol nCol refCol s).2 =
      ((dataRowList s).filter (fun r => (rowAmt m kCol s r).isSome)).length ∧
    (∀ r, r ∈ dataRowList s → ∀ amt, rowAmt m kCol s r = some amt →
      (writeDataRows m kCol nCol refCol s).1.cells r nCol = writtenCell s refCol r amt) ∧
    (∀ r, r ∈ dataRowList s → rowAmt m kCol s r = none →
      (writeDataRows m kCol nCol refCol s).1.cells r nCol = s.cells r nCol) ∧
    (∀ r q, ¬(r ∈ dataRowList s ∧ q = nCol) →
      (writeDataRows m kCol nCol refCol s).1.cells r q = s.cells r q) := by
  have h := writeDataRows_spec m kCol nCol refCol s
  refine ⟨rfl, h.2, ?_, ?_, ?_⟩
  · intro r hr amt hamt
    rw [h.1 r nCol, hamt, if_pos ⟨hr, rfl, rfl⟩]
    rfl
  · intro r hr hamt
    rw [h.1 r nCol, hamt, if_neg (by rintro ⟨-, -, hs⟩; cases hs)]
  · intro r q hq
    rw [h.1 r q, if_neg (by rintro ⟨h1, h2, -⟩; exact hq ⟨h1, h2⟩)]

/-- C6 witness: the amended characterization at the concrete sheet
`sheetC3w` - row 3 matches `A1` and receives the written cell. -/
theorem C6_amended_row_scan_witness :
    (writeDataRows (buildNetAmountMap pivotC3) 5 6 7 sheetC3w).1.cells 3 6 =
      writtenCell sheetC3w 7 3 500 :=
  (C6_amended_row_scan (buildNetAmountMap pivotC3) 5 6 7 sheetC3w).2.2.1 3
    (by decide) 500 (by decide)

/-! ### Claim C7 -/

/-- C7 counterexample: the claim states a row is written exactly when its
key cell string value equals some non-Totals pivot advance id.  The code
strips the sheet-side key first: the key cell `" A1 "` is not equal to any
pivot id (and is not a key of the lookup), yet the row is written. -/
theorem C7_counterexample :
    (sheetC7.cells 3 2).value = some (Val.vStr " A1 ") ∧
    pyStr (Val.vStr " A1 ") ≠ "A1" ∧
    dictLookup (buildNetAmountMap pivotC3) " A1 " = none ∧
    ((writeDataRows (buildNetAmountMap pivotC3) 2 4 7 sheetC7).1.cells 3 4).value =
      some (Val.vNum 500) ∧
    (writeDataRows (buildNetAmountMap pivotC3) 2 4 7 sheetC7).2 = 1 := by
  refine ⟨rfl, by decide, by decide, ?_, ?_⟩ <;> decide

/-- C7 amended: a scanned workbook row is written if and only if its key
cell is truthy and its string value, after stripping surrounding whitespace,
equals the advance id of some non-Totals pivot row (case-sensitive string
equality); every other cell is untouched, so a pivot id absent from the
sheet leaves the sheet unchanged for that id and causes no error. -/
theorem C7_amended_strip_match (pd : List PivotTableData) (kCol nCol refCol : Nat) (s : Sheet) :
    (∀ r, r ∈ dataRowList s →
      (writeDataRows (buildNetAmountMap pd) kCol nCol refCol s).1.cells r nCol =
        (match (truthyStr ((s.cells r kCol).value)).bind
            (fun raw => dictLookup (buildNetAmountMap pd) (pyStrip raw)) with
         | some amt => writtenCell s refCol r amt
         | none => s.cells r nCol)) ∧
    (∀ r q, ¬(r ∈ dataRowList s ∧ q = nCol) →
      (writeDataRows (buildNetAmountMap pd) kCol nCol refCol s).1.cells r q = s.cells r q) := by
  have h := writeDataRows_spec (buildNetAmountMap pd) kCol nCol refCol s
  have hbind : ∀ r, (truthyStr ((s.cells r kCol).value)).bind
      (fun raw => dictLookup (buildNetAmountMap pd) (pyStrip raw)) =
      rowAmt (buildNetAmountMap pd) kCol s r := by
    intro r
    unfold rowAmt
    cases htr : truthyStr ((s.cells r kCol).value) <;> simp [htr]
  refine ⟨?_, ?_⟩
  · intro r hr
    rw [hbind r, h.1 r nCol]
    cases hamt : rowAmt (buildNetAmountMap pd) kCol s r with
    | none =>
      rw [if_neg (by simp)]
    | some amt =>
      rw [if_pos ⟨hr, rfl, rfl⟩]
      rfl
  · intro r q hq
    rw [h.1 r q, if_neg (by rintro ⟨h1, h2, -⟩; exact hq ⟨h1, h2⟩)]

/-- C7 witness: the amended characterization at the concrete whitespace
fixture - the stripped key matches and the cell is written. -/
theorem C7_amended_strip_match_witness :
    (writeDataRows (buildNetAmountMap pivotC3) 2 4 7 sheetC7).1.cells 3 4 =
      (match (truthyStr ((sheetC7.cells 3 2).value)).bind
          (fun raw => dictLookup (buildNetAmountMap pivotC3) (pyStrip raw)) with
       | some amt => writtenCell sheetC7 7 3 amt
       | none => sheetC7.cells 3 4) :=
  (C7_amended_strip_match pivotC3 2 4 7 sheetC7).1 3 (by decide)

/-! ### Claim C8 -/

/-- C8: the Totals sentinel row is excluded from the net-amount lookup for
every input pivot list, and consequently the data-row writer never changes a
cell on behalf of the key `Totals`: any cell the writer changes belongs to a
row whose stripped key string differs from `Totals`. -/
theorem C8_totals_never_written :
    (∀ pd : List PivotTableData, dictLookup (buildNetAmountMap pd) "Totals" = none) ∧
    (∀ (pd : List PivotTableData) (kCol nCol refCol : Nat) (s : Sheet) (r q : Nat),
      ((writeDataRows (buildNetAmountMap pd) kCol nCol refCol s).1.cells r q).value ≠
        (s.cells r q).value →
      keyStr s kCol r ≠ some "Totals") := by
  refine ⟨buildNetAmountMap_totals_none, ?_⟩
  intro pd kCol nCol refCol s r q hne
  have h := writeDataRows_spec (buildNetAmountMap pd) kCol nCol refCol s
  by_cases hcond : r ∈ dataRowList s ∧ q = nCol ∧
      (rowAmt (buildNetAmountMap pd) kCol s r).isSome
  · obtain ⟨-, -, hsome⟩ := hcond
    unfold rowAmt at hsome
    unfold keyStr
    cases htr : truthyStr ((s.cells r kCol).value) with
    | none => rw [htr] at hsome; cases hsome
    | some raw =>
      rw [htr] at hsome
      simp only [] at hsome
      simp only [Option.map_some']
      intro hcontra
      injection hcontra with hstrip
      rw [hstrip] at hsome
      rw [buildNetAmountMap_totals_none pd] at hsome
      cases hsome
  · rw [h.1 r q, if_neg hcond] at hne
    exact absurd rfl hne

/-- C8 witness: the written cell of the whitespace fixture was changed by
the writer, so its key is not the Totals sentinel. -/
theorem C8_totals_never_written_witness :
    keyStr sheetC7 2 3 ≠ some "Totals" :=
  C8_totals_never_written.2 pivotC3 2 4 7 sheetC7 3 4 (by decide)

/-! ### Toward claim C3: small structural lemmas -/

theorem setColWidth_cells (s : Sheet) (c w r' q : Nat) :
    (setColWidth s c w).cells r' q = s.cells r' q := rfl

theorem setColWidth_colWidth (s : Sheet) (c w q : Nat) :
    (setColWidth s c w).colWidth q = if q = c then some w else s.colWidth q := rfl

theorem writeHeader_cells_ne (s : Sheet) (c : Nat) (L : String) (r q : Nat)
    (h : ¬(r = 2 ∧ q = c)) : (writeHeader s c L).cells r q = s.cells r q := by
  unfold writeHeader
  by_cases h1 : 1 < c
  · rw [if_pos h1]
    show (copyStyle (setCellValue s 2 c (some (Val.vStr L))) 2 (c - 1) 2 c).cells r q = s.cells r q
    unfold copyStyle setCellValue
    simp only []
    rw [if_neg h, if_neg h]
  · rw [if_neg h1]
    unfold setCellValue
    simp only []
    rw [if_neg h]

theorem writeHeader_value_at (s : Sheet) (c : Nat) (L : String) :
    ((writeHeader s c L).cells 2 c).value = some (.vStr L) := by
  unfold writeHeader
  by_cases h1 : 1 < c
  · rw [if_pos h1]
    show ((copyStyle (setCellValue s 2 c (some (Val.vStr L))) 2 (c - 1) 2 c).cells 2 c).value =
      some (Val.vStr L)
    unfold copyStyle setCellValue
    simp
  · rw [if_neg h1]
    unfold setCellValue
    simp

theorem writeHeader_maxRow (s : Sheet) (c : Nat) (L : String) :
    (writeHeader s c L).maxRow = max s.maxRow 2 := by
  unfold writeHeader
  by_cases h1 : 1 < c <;> simp [h1, copyStyle, setCellValue]

theorem writeHeader_maxCol (s : Sheet) (c : Nat) (L : String) :
    (writeHeader s c L).maxCol = max s.maxCol c := by
  unfold writeHeader
  by_cases h1 : 1 < c <;> simp [h1, copyStyle, setCellValue]

theorem writeHeader_colWidth (s : Sheet) (c : Nat) (L : String) (q : Nat) :
    (writeHeader s c L).colWidth q = s.colWidth q := by
  unfold writeHeader
  by_cases h1 : 1 < c <;> simp [h1, copyStyle, setCellValue]

theorem dataRowList_congr (x y : Sheet) (h : x.maxRow = y.maxRow) :
    dataRowList x = dataRowList y := by
  unfold dataRowList
  rw [h]

theorem mem_dataRowList (s : Sheet) (r : Nat) (h : r ∈ dataRowList s) :
    3 ≤ r ∧ r ≤ s.maxRow ∧ r ≤ 999 := by
  have := List.mem_range'_1.mp h
  omega

theorem truthyStr_label (L : String) (hL2 : L ≠ "") :
    truthyStr (some (.vStr L)) = some L := by
  simp [truthyStr, pyTruthy, pyStr, hL2]

theorem matchCol_of_label (s1 : Sheet) (L : String) (c : Nat)
    (hv : (s1.cells 2 c).value = some (.vStr L)) (hL1 : pyStrip L = L) (hL2 : L ≠ "")
    (hL3 : startsWithStr "Net RTR" L = true) : matchCol s1 L c = true := by
  unfold matchCol
  rw [hv, truthyStr_label L hL2]
  simp [hL1, hL3]

theorem isDataCol_of_label (s1 : Sheet) (L : String) (c : Nat)
    (hv : (s1.cells 2 c).value = some (.vStr L)) (hL1 : pyStrip L = L) (hL2 : L ≠ "") :
    isDataCol s1 c = true := by
  unfold isDataCol
  rw [hv, truthyStr_label L hL2]
  simp [hL1, hL2]

theorem matchCol_value_congr (s t : Sheet) (L : String) (col : Nat)
    (h : (s.cells 2 col).value = (t.cells 2 col).value) :
    matchCol s L col = matchCol t L col := by
  unfold matchCol
  rw [h]

theorem matchCol_empty (s : Sheet) (L : String) (col : Nat)
    (h : s.cells 2 col = emptyCell) : matchCol s L col = false := by
  unfold matchCol
  rw [h]
  rfl

theorem scanHeaders_mem_netRtrColumns (s : Sheet) (L : String) (col : Nat) (str : String)
    (h : (col, str) ∈ (scanHeaders s L).netRtrColumns) :
    col ∈ List.range' 1 s.maxCol ∧ famEntry s col = some (col, str) := by
  unfold scanHeaders at h
  rcases scanFold_mem_netRtrColumns s L _ _ col str h with h1 | h1
  · cases h1
  · exact h1

theorem scanHeaders_lastNetRtr_mem (s : Sheet) (L : String) :
    (scanHeaders s L).lastNetRtrCol = 0 ∨
    ∃ str, ((scanHeaders s L).lastNetRtrCol, str) ∈ (scanHeaders s L).netRtrColumns := by
  unfold scanHeaders
  have := scanFold_lastNetRtr_mem s L (List.range' 1 s.maxCol) ⟨none, [], 0, 1⟩
  rcases this with h | h
  · exact Or.inl h
  · exact Or.inr h

/-- A successful `findPrior` hit comes from a family column. -/
theorem findPrior_ok_some (fam : List (Nat × String)) (rd : String) (x : Nat)
    (h : findPrior fam rd = Except.ok (some x)) : ∃ p, p ∈ fam ∧ x = p.1 + 1 := by
  unfold findPrior at h
  by_cases hlen : (chSplit '-' rd).length = 3
  · rw [if_pos hlen] at h
    cases e0 : pyInt ((chSplit '-' rd).getD 0 "") with
    | none => rw [e0] at h; simp only [] at h; exact Except.noConfusion h
    | some y =>
      rw [e0] at h
      cases e1 : pyInt ((chSplit '-' rd).getD 1 "") with
      | none => rw [e1] at h; simp only [] at h; exact Except.noConfusion h
      | some mo =>
        rw [e1] at h
        cases e2 : pyInt ((chSplit '-' rd).getD 2 "") with
        | none => rw [e2] at h; simp only [] at h; exact Except.noConfusion h
        | some da =>
          rw [e2] at h
          simp only [] at h
          by_cases hv : validDate y mo da
          · rw [if_pos hv] at h
            injection h with h'
            exact searchWeeksGo_mem fam y mo da (5 - 1) 1 x h'
          · rw [if_neg hv] at h
            cases h
  · rw [if_neg hlen] at h
    injection h with h'
    cases h'

/-- The three ways `choosePlacement` can pick a column. -/
theorem choosePlacement_cases (sc : ScanResult) (rd : String) (c : Nat)
    (h : choosePlacement sc rd = Except.ok c) :
    (∃ p, p ∈ sc.netRtrColumns ∧ c = p.1 + 1) ∨
    (0 < sc.lastNetRtrCol ∧ c = sc.lastNetRtrCol + 1) ∨
    (sc.lastNetRtrCol = 0 ∧ c = sc.lastDataCol + 1) := by
  unfold choosePlacement at h
  cases hfp : findPrior sc.netRtrColumns rd with
  | error e => simp [Bind.bind, Except.bind, hfp] at h
  | ok prior =>
    simp only [Bind.bind, Except.bind, hfp] at h
    cases prior with
    | some x =>
      simp only [] at h
      injection h with h'
      subst h'
      exact Or.inl (findPrior_ok_some sc.netRtrColumns rd x hfp)
    | none =>
      simp only [] at h
      by_cases hl : 0 < sc.lastNetRtrCol
      · rw [if_pos hl] at h
        injection h with h'
        exact Or.inr (Or.inl ⟨hl, h'.symm⟩)
      · rw [if_neg hl] at h
        injection h with h'
        exact Or.inr (Or.inr ⟨by omega, h'.symm⟩)

theorem cell_update_value_self (x : Cell) (h : x.value = none) :
    { x with value := none } = x := by
  cases x
  simp only [] at h
  rw [h]

/-- Core of the idempotence argument: a Replace-mode pass
(`clear` + key search + data writes + width) applied to a sheet `s1` that
was itself produced by a write pass over a mid-sheet `sMid` (whose target
column was empty below row 2) reproduces `s1` and the same count. -/
theorem replaceRun_fixed (m : List (String × Int)) (c k rc ld2 n1 : Nat) (sMid s1 : Sheet)
    (hkc : k ≠ c)
    (hcmax : c ≤ s1.maxCol)
    (hkey2 : findKeyCol s1 = k)
    (hrc2 : max 7 (min (c - 1) ld2) = rc)
    (hmaxrow : sMid.maxRow = s1.maxRow)
    (hw15 : s1.colWidth c = some 15)
    (hchar : ∀ r q, s1.cells r q =
        if r ∈ dataRowList sMid ∧ q = c ∧ (rowAmt m k sMid r).isSome
        then writtenCell sMid rc r ((rowAmt m k sMid r).getD 0)
        else sMid.cells r q)
    (hempty : ∀ r, 3 ≤ r → r ≤ sMid.maxRow → (sMid.cells r c).value = none)
    (hn1 : n1 = ((dataRowList sMid).filter (fun r => (rowAmt m k sMid r).isSome)).length) :
    finishWrite m ld2 c (clearColumnData s1 c) = (s1, n1) := by
  have hclear := clearColumnData_spec s1 c hcmax
  have hRA : dataRowList (clearColumnData s1 c) = dataRowList sMid := by
    apply dataRowList_congr
    rw [hclear.2.1, hmaxrow]
  have hkeyA : findKeyCol (clearColumnData s1 c) = k := by
    rw [← hkey2]
    apply findKeyCol_congr
    · exact hclear.2.2.1
    · intro col
      rw [hclear.1 2 col, if_neg (by omega)]
  have hkc_cells : ∀ r, (clearColumnData s1 c).cells r k = sMid.cells r k := by
    intro r
    rw [hclear.1 r k, if_neg (by rintro ⟨-, -, hq⟩; exact hkc hq),
      hchar r k, if_neg (by rintro ⟨-, hq, -⟩; exact hkc hq)]
  have hamtA : ∀ r, rowAmt m k (clearColumnData s1 c) r = rowAmt m k sMid r := by
    intro r
    unfold rowAmt
    rw [hkc_cells r]
  have hwritA : ∀ r ∈ dataRowList sMid, ∀ a : Int,
      writtenCell (clearColumnData s1 c) rc r a = writtenCell sMid rc r a := by
    intro r hr a
    have hrb := mem_dataRowList sMid r hr
    by_cases hrcc : rc = c
    · subst hrcc
      have hscell : (clearColumnData s1 rc).cells r rc =
          { s1.cells r rc with value := none } := by
        rw [hclear.1 r rc, if_pos ⟨hrb.1, hmaxrow ▸ hrb.2.1, rfl⟩]
      unfold writtenCell
      rw [hscell]
      simp only []
      rw [hchar r rc]
      by_cases hm' : r ∈ dataRowList sMid ∧ rc = rc ∧ (rowAmt m k sMid r).isSome = true
      · rw [if_pos hm']
        unfold writtenCell
        simp only []
      · rw [if_neg hm']
    · have hcc : (clearColumnData s1 c).cells r rc = sMid.cells r rc := by
        rw [hclear.1 r rc, if_neg (by rintro ⟨-, -, hq⟩; exact hrcc hq),
          hchar r rc, if_neg (by rintro ⟨-, hq, -⟩; exact hrcc hq)]
      unfold writtenCell
      rw [hcc]
  have hspec := writeDataRows_spec m k c rc (clearColumnData s1 c)
  have hdims : (writeDataRows m k c rc (clearColumnData s1 c)).1.maxRow =
        (clearColumnData s1 c).maxRow ∧
      (writeDataRows m k c rc (clearColumnData s1 c)).1.maxCol =
        (clearColumnData s1 c).maxCol ∧
      ∀ q, (writeDataRows m k c rc (clearColumnData s1 c)).1.colWidth q =
        (clearColumnData s1 c).colWidth q :=
    writeRowsGo_dims m k c rc (dataRowList (clearColumnData s1 c)) (clearColumnData s1 c) 0
      (fun r hr => (mem_dataRowList _ r hr).2.1) (by rw [hclear.2.2.1]; exact hcmax)
  have hfilter : (dataRowList (clearColumnData s1 c)).filter
        (fun r => (rowAmt m k (clearColumnData s1 c) r).isSome) =
      (dataRowList sMid).filter (fun r => (rowAmt m k sMid r).isSome) := by
    rw [hRA]
    apply List.filter_congr
    intro r _
    rw [hamtA r]
  have hcells : ∀ r q,
      (setColWidth (writeDataRows m k c rc (clearColumnData s1 c)).1 c 15).cells r q =
        s1.cells r q := by
    intro r q
    rw [setColWidth_cells, hspec.1 r q]
    by_cases hcond : r ∈ dataRowList sMid ∧ q = c ∧ (rowAmt m k sMid r).isSome
    · rw [if_pos ⟨hRA ▸ hcond.1, hcond.2.1, (hamtA r) ▸ hcond.2.2⟩]
      rw [hamtA r, hwritA r hcond.1 _]
      rw [hchar r q, if_pos hcond]
    · rw [if_neg (by rintro ⟨hm1, hm2, hm3⟩; exact hcond ⟨hRA ▸ hm1, hm2, (hamtA r) ▸ hm3⟩)]
      rw [hclear.1 r q]
      by_cases hin : 3 ≤ r ∧ r ≤ s1.maxRow ∧ q = c
      · rw [if_pos hin]
        rw [hin.2.2]
        have hv : (s1.cells r c).value = none := by
          rw [hchar r c,
            if_neg (by rintro ⟨hm1, -, hm3⟩; exact hcond ⟨hm1, hin.2.2, hm3⟩)]
          exact hempty r hin.1 (by rw [hmaxrow]; exact hin.2.1)
        rw [cell_update_value_self _ hv]
      · rw [if_neg hin]
  have hcount : (writeDataRows m k c rc (clearColumnData s1 c)).2 = n1 := by
    rw [hspec.2, hfilter, hn1]
  show (setColWidth (writeDataRows m (findKeyCol (clearColumnData s1 c)) c
      (max 7 (min (c - 1) ld2)) (clearColumnData s1 c)).1 c 15,
    (writeDataRows m (findKeyCol (clearColumnData s1 c)) c
      (max 7 (min (c - 1) ld2)) (clearColumnData s1 c)).2) = (s1, n1)
  rw [hkeyA, hrc2]
  have hsheet : setColWidth (writeDataRows m k c rc (clearColumnData s1 c)).1 c 15 = s1 := by
    apply Sheet.ext' hcells
    · show (writeDataRows m k c rc (clearColumnData s1 c)).1.maxRow = s1.maxRow
      rw [hdims.1, hclear.2.1]
    · show (writeDataRows m k c rc (clearColumnData s1 c)).1.maxCol = s1.maxCol
      rw [hdims.2.1, hclear.2.2.1]
    · intro q
      rw [setColWidth_colWidth]
      by_cases hq : q = c
      · rw [if_pos hq, hq, hw15]
      · rw [if_neg hq, hdims.2.2 q, hclear.2.2.2 q]
  rw [hsheet, hcount]

/-- Wrapper of the data-column lower bound for `scanHeaders`. -/
theorem scanHeaders_lastData_ge (s : Sheet) (L : String) (col : Nat)
    (hmem : col ∈ List.range' 1 s.maxCol) (hd : isDataCol s col = true) :
    col ≤ (scanHeaders s L).lastDataCol :=
  scanFold_lastData_ge s L s.maxCol col hmem hd

/-- A freshly placed column sits one past a data column of the scan. -/
theorem placement_lastData_ge (s : Sheet) (L rd : String) (c : Nat)
    (h : choosePlacement (scanHeaders s L) rd = Except.ok c) :
    c - 1 ≤ (scanHeaders s L).lastDataCol ∧ 1 ≤ c := by
  rcases choosePlacement_cases (scanHeaders s L) rd c h with ⟨p, hmem, hc⟩ | ⟨hl, hc⟩ | ⟨hl, hc⟩
  · have hp : p = (p.1, p.2) := rfl
    have := scanHeaders_mem_netRtrColumns s L p.1 p.2 (by rw [← hp]; exact hmem)
    have hdata := isDataCol_of_famEntry s p.1 (p.1, p.2) this.2
    have hge := scanHeaders_lastData_ge s L p.1 this.1 hdata
    omega
  · rcases scanHeaders_lastNetRtr_mem s L with h0 | ⟨str, hmem⟩
    · omega
    · have := scanHeaders_mem_netRtrColumns s L _ str hmem
      have hdata := isDataCol_of_famEntry s _ (_, str) this.2
      have hge := scanHeaders_lastData_ge s L _ this.1 hdata
      omega
  · omega

/-! ### Claim C3 -/

/-- C3 counterexample: the claim asserts that applying the same
{reportDate, pivotData} twice to the same starting workbook yields the same
final workbook.  On `sheetC3` the first run places the new column at index 4
without clearing the stale value 999 sitting at (3, 4) under the empty
header; the second run finds the exact header there, clears rows ≥ 3, and
erases that value: the cell holds 999 after one application and nothing
after two. -/
theorem C3_counterexample :
    (applySheet "Net RTR 3/14/25" "2025-03-14" pivotC3 sheetC3).map
      (fun out => ((out.1.cells 3 4).value, out.2)) =
      Except.ok (some (Val.vNum 999), 0) ∧
    ((applySheet "Net RTR 3/14/25" "2025-03-14" pivotC3 sheetC3).bind
      (fun out => applySheet "Net RTR 3/14/25" "2025-03-14" pivotC3 out.1)).map
      (fun out => ((out.1.cells 3 4).value, out.2)) =
      Except.ok (none, 0) := by
  exact ⟨rfl, rfl⟩

/-- C3 amended: a run whose header row matches the target label exactly
reuses that column and clears rows ≥ 3 before rewriting, and a second run of
the same {reportDate, pivotData} on the output reproduces the output
exactly - provided the placement column of the first run is distinct from
the advance-id key column and, when the first run creates a new column,
that column held no values below row 2 in the starting sheet.  (The
counterexample shows some such proviso is forced: a new column placed over
stale data is not cleared by the first run but is cleared by the second.) -/
theorem C3_amended_idempotent
    (L rd : String) (pd : List PivotTableData) (s s1 : Sheet) (n1 c : Nat)
    (hwf : Sheet.wf s)
    (hL1 : pyStrip L = L) (hL2 : L ≠ "") (hL3 : startsWithStr "Net RTR" L = true)
    (hc : placementCol L rd s = Except.ok c)
    (hrun : applySheet L rd pd s = Except.ok (s1, n1))
    (hkey : findKeyCol s1 ≠ c)
    (hfresh : (scanHeaders s L).netRtrCol = none →
      ∀ r, 3 ≤ r → r ≤ s.maxRow → (s.cells r c).value = none) :
    applySheet L rd pd s1 = Except.ok (s1, n1) := by
  unfold placementCol at hc
  unfold applySheet at hrun
  cases hsc : (scanHeaders s L).netRtrCol with
  | some c0 =>
    rw [hsc] at hc hrun
    simp only [] at hc hrun
    injection hc with hc'
    rw [← hc'] at hkey hfresh
    injection hrun with hrun'
    have hcr := scanHeaders_netRtrCol_some s L c0 hsc
    have hcmax0 : c0 ≤ s.maxCol := by
      have := List.mem_range'_1.mp hcr.1
      omega
    have hclearS := clearColumnData_spec s c0 hcmax0
    have hs1 : setColWidth (writeDataRows (buildNetAmountMap pd)
        (findKeyCol (clearColumnData s c0)) c0
        (max 7 (min (c0 - 1) (scanHeaders s L).lastDataCol)) (clearColumnData s c0)).1
        c0 15 = s1 :=
      congrArg Prod.fst hrun'
    have hn1' : (writeDataRows (buildNetAmountMap pd) (findKeyCol (clearColumnData s c0)) c0
        (max 7 (min (c0 - 1) (scanHeaders s L).lastDataCol)) (clearColumnData s c0)).2 = n1 :=
      congrArg Prod.snd hrun'
    have hspecS := writeDataRows_spec (buildNetAmountMap pd)
      (findKeyCol (clearColumnData s c0)) c0
      (max 7 (min (c0 - 1) (scanHeaders s L).lastDataCol)) (clearColumnData s c0)
    have hdimsS : (writeDataRows (buildNetAmountMap pd) (findKeyCol (clearColumnData s c0)) c0
          (max 7 (min (c0 - 1) (scanHeaders s L).lastDataCol)) (clearColumnData s c0)).1.maxRow =
          (clearColumnData s c0).maxRow ∧
        (writeDataRows (buildNetAmountMap pd) (findKeyCol (clearColumnData s c0)) c0
          (max 7 (min (c0 - 1) (scanHeaders s L).lastDataCol)) (clearColumnData s c0)).1.maxCol =
          (clearColumnData s c0).maxCol ∧
        ∀ q, (writeDataRows (buildNetAmountMap pd) (findKeyCol (clearColumnData s c0)) c0
          (max 7 (min (c0 - 1) (scanHeaders s L).lastDataCol)) (clearColumnData s c0)).1.colWidth q =
          (clearColumnData s c0).colWidth q :=
      writeRowsGo_dims (buildNetAmountMap pd) (findKeyCol (clearColumnData s c0)) c0
        (max 7 (min (c0 - 1) (scanHeaders s L).lastDataCol))
        (dataRowList (clearColumnData s c0)) (clearColumnData s c0) 0
        (fun r hr => (mem_dataRowList _ r hr).2.1)
        (by rw [hclearS.2.2.1]; exact hcmax0)
    have hmrow1 : s1.maxRow = s.maxRow := by
      rw [← hs1]
      show (writeDataRows (buildNetAmountMap pd) (findKeyCol (clearColumnData s c0)) c0
        (max 7 (min (c0 - 1) (scanHeaders s L).lastDataCol)) (clearColumnData s c0)).1.maxRow =
        s.maxRow
      rw [hdimsS.1, hclearS.2.1]
    have hmcol1 : s1.maxCol = s.maxCol := by
      rw [← hs1]
      show (writeDataRows (buildNetAmountMap pd) (findKeyCol (clearColumnData s c0)) c0
        (max 7 (min (c0 - 1) (scanHeaders s L).lastDataCol)) (clearColumnData s c0)).1.maxCol =
        s.maxCol
      rw [hdimsS.2.1, hclearS.2.2.1]
    have hrow2A : ∀ col, (s1.cells 2 col).value = ((clearColumnData s c0).cells 2 col).value := by
      intro col
      rw [← hs1, setColWidth_cells, hspecS.1 2 col,
        if_neg (by rintro ⟨hmem, -, -⟩; exact absurd (mem_dataRowList _ 2 hmem).1 (by omega))]
    have hrow2 : ∀ col, (s1.cells 2 col).value = (s.cells 2 col).value := by
      intro col
      rw [hrow2A col, hclearS.1 2 col, if_neg (by omega)]
    have hscan1 : scanHeaders s1 L = scanHeaders s L :=
      scanHeaders_congr s1 s L hmcol1 hrow2
    have hkeyS : findKeyCol s1 = findKeyCol (clearColumnData s c0) := by
      apply findKeyCol_congr
      · rw [hmcol1, hclearS.2.2.1]
      · exact hrow2A
    have hw15' : s1.colWidth c0 = some 15 := by
      rw [← hs1, setColWidth_colWidth, if_pos rfl]
    have hchar' : ∀ r q, s1.cells r q =
        if r ∈ dataRowList (clearColumnData s c0) ∧ q = c0 ∧
            (rowAmt (buildNetAmountMap pd) (findKeyCol (clearColumnData s c0))
              (clearColumnData s c0) r).isSome
        then writtenCell (clearColumnData s c0)
          (max 7 (min (c0 - 1) (scanHeaders s L).lastDataCol)) r
          ((rowAmt (buildNetAmountMap pd) (findKeyCol (clearColumnData s c0))
            (clearColumnData s c0) r).getD 0)
        else (clearColumnData s c0).cells r q := by
      intro r q
      rw [← hs1, setColWidth_cells]
      exact hspecS.1 r q
    have hempty' : ∀ r, 3 ≤ r → r ≤ (clearColumnData s c0).maxRow →
        ((clearColumnData s c0).cells r c0).value = none := by
      intro r h3 hmax
      rw [hclearS.2.1] at hmax
      rw [hclearS.1 r c0, if_pos ⟨h3, hmax, rfl⟩]
    unfold applySheet
    rw [hscan1, hsc]
    simp only []
    rw [replaceRun_fixed (buildNetAmountMap pd) c0 (findKeyCol (clearColumnData s c0))
      (max 7 (min (c0 - 1) (scanHeaders s L).lastDataCol)) (scanHeaders s L).lastDataCol n1
      (clearColumnData s c0) s1
      (hkeyS ▸ hkey) (by rw [hmcol1]; exact hcmax0) hkeyS rfl
      (hclearS.2.1.trans hmrow1.symm) hw15' hchar' hempty'
      ((hn1'.symm).trans hspecS.2)]
  | none =>
    rw [hsc] at hc hrun
    simp only [] at hc hrun
    rw [hc] at hrun
    simp only [Except.map] at hrun
    injection hrun with hrun'
    have hfresh' := hfresh hsc
    have hpl := placement_lastData_ge s L rd c hc
    have hs1 : setColWidth (writeDataRows (buildNetAmountMap pd)
        (findKeyCol (writeHeader s c L)) c
        (max 7 (min (c - 1) (scanHeaders s L).lastDataCol)) (writeHeader s c L)).1
        c 15 = s1 :=
      congrArg Prod.fst hrun'
    have hn1' : (writeDataRows (buildNetAmountMap pd) (findKeyCol (writeHeader s c L)) c
        (max 7 (min (c - 1) (scanHeaders s L).lastDataCol)) (writeHeader s c L)).2 = n1 :=
      congrArg Prod.snd hrun'
    have hspecB := writeDataRows_spec (buildNetAmountMap pd) (findKeyCol (writeHeader s c L)) c
      (max 7 (min (c - 1) (scanHeaders s L).lastDataCol)) (writeHeader s c L)
    have hwhMR := writeHeader_maxRow s c L
    have hwhMC := writeHeader_maxCol s c L
    have hdimsB : (writeDataRows (buildNetAmountMap pd) (findKeyCol (writeHeader s c L)) c
          (max 7 (min (c - 1) (scanHeaders s L).lastDataCol)) (writeHeader s c L)).1.maxRow =
          (writeHeader s c L).maxRow ∧
        (writeDataRows (buildNetAmountMap pd) (findKeyCol (writeHeader s c L)) c
          (max 7 (min (c - 1) (scanHeaders s L).lastDataCol)) (writeHeader s c L)).1.maxCol =
          (writeHeader s c L).maxCol ∧
        ∀ q, (writeDataRows (buildNetAmountMap pd) (findKeyCol (writeHeader s c L)) c
          (max 7 (min (c - 1) (scanHeaders s L).lastDataCol)) (writeHeader s c L)).1.colWidth q =
          (writeHeader s c L).colWidth q :=
      writeRowsGo_dims (buildNetAmountMap pd) (findKeyCol (writeHeader s c L)) c
        (max 7 (min (c - 1) (scanHeaders s L).lastDataCol))
        (dataRowList (writeHeader s c L)) (writeHeader s c L) 0
        (fun r hr => (mem_dataRowList _ r hr).2.1)
        (by rw [hwhMC]; exact Nat.le_max_right _ _)
    have hmrow1 : s1.maxRow = max s.maxRow 2 := by
      rw [← hs1]
      show (writeDataRows (buildNetAmountMap pd) (findKeyCol (writeHeader s c L)) c
        (max 7 (min (c - 1) (scanHeaders s L).lastDataCol)) (writeHeader s c L)).1.maxRow =
        max s.maxRow 2
      rw [hdimsB.1, hwhMR]
    have hmcol1 : s1.maxCol = max s.maxCol c := by
      rw [← hs1]
      show (writeDataRows (buildNetAmountMap pd) (findKeyCol (writeHeader s c L)) c
        (max 7 (min (c - 1) (scanHeaders s L).lastDataCol)) (writeHeader s c L)).1.maxCol =
        max s.maxCol c
      rw [hdimsB.2.1, hwhMC]
    have hrow2B : ∀ col, (s1.cells 2 col).value = ((writeHeader s c L).cells 2 col).value := by
      intro col
      rw [← hs1, setColWidth_cells, hspecB.1 2 col,
        if_neg (by rintro ⟨hmem, -, -⟩; exact absurd (mem_dataRowList _ 2 hmem).1 (by omega))]
    have hval_c : (s1.cells 2 c).value = some (Val.vStr L) := by
      rw [hrow2B c, writeHeader_value_at]
    have hval_ne : ∀ col, col ≠ c → (s1.cells 2 col).value = (s.cells 2 col).value := by
      intro col hne
      rw [hrow2B col, writeHeader_cells_ne s c L 2 col (by rintro ⟨-, h2⟩; exact hne h2)]
    have hcmem : c ∈ List.range' 1 s1.maxCol := by
      rw [hmcol1]
      refine List.mem_range'_1.mpr ⟨hpl.2, ?_⟩
      have := Nat.le_max_right s.maxCol c
      omega
    have huni : ∀ col ∈ List.range' 1 s1.maxCol, matchCol s1 L col = true ↔ col = c := by
      intro col hcolmem
      constructor
      · intro hmc'
        by_contra hne
        rw [matchCol_value_congr s1 s L col (hval_ne col hne)] at hmc'
        by_cases hcs : col ≤ s.maxCol
        · have hmem : col ∈ List.range' 1 s.maxCol := by
            have := List.mem_range'_1.mp hcolmem
            exact List.mem_range'_1.mpr ⟨this.1, by omega⟩
          exact scanHeaders_netRtrCol_none s L hsc col hmem hmc'
        · rw [matchCol_empty s L col (hwf 2 col (Or.inr (by omega)))] at hmc'
          cases hmc'
      · intro h
        subst h
        exact matchCol_of_label s1 L col hval_c hL1 hL2 hL3
    have hscan2 : (scanHeaders s1 L).netRtrCol = some c :=
      scanHeaders_netRtrCol_unique s1 L c hcmem huni
    have hdataC : isDataCol s1 c = true := isDataCol_of_label s1 L c hval_c hL1 hL2
    have hld2 : c ≤ (scanHeaders s1 L).lastDataCol :=
      scanHeaders_lastData_ge s1 L c hcmem hdataC
    have hrc2' : max 7 (min (c - 1) (scanHeaders s1 L).lastDataCol) =
        max 7 (min (c - 1) (scanHeaders s L).lastDataCol) := by
      rw [Nat.min_eq_left (by omega : c - 1 ≤ (scanHeaders s1 L).lastDataCol),
        Nat.min_eq_left hpl.1]
    have hkeyS : findKeyCol s1 = findKeyCol (writeHeader s c L) := by
      apply findKeyCol_congr
      · rw [hmcol1, hwhMC]
      · exact hrow2B
    have hchar' : ∀ r q, s1.cells r q =
        if r ∈ dataRowList (writeHeader s c L) ∧ q = c ∧
            (rowAmt (buildNetAmountMap pd) (findKeyCol (writeHeader s c L))
              (writeHeader s c L) r).isSome
        then writtenCell (writeHeader s c L)
          (max 7 (min (c - 1) (scanHeaders s L).lastDataCol)) r
          ((rowAmt (buildNetAmountMap pd) (findKeyCol (writeHeader s c L))
            (writeHeader s c L) r).getD 0)
        else (writeHeader s c L).cells r q := by
      intro r q
      rw [← hs1, setColWidth_cells]
      exact hspecB.1 r q
    have hempty' : ∀ r, 3 ≤ r → r ≤ (writeHeader s c L).maxRow →
        ((writeHeader s c L).cells r c).value = none := by
      intro r h3 hmax
      rw [hwhMR] at hmax
      rw [writeHeader_cells_ne s c L r c (by rintro ⟨h2, -⟩; omega)]
      exact hfresh' r h3 (by omega)
    have hw15' : s1.colWidth c = some 15 := by
      rw [← hs1, setColWidth_colWidth, if_pos rfl]
    unfold applySheet
    rw [hscan2]
    simp only []
    rw [replaceRun_fixed (buildNetAmountMap pd) c (findKeyCol (writeHeader s c L))
      (max 7 (min (c - 1) (scanHeaders s L).lastDataCol)) (scanHeaders s1 L).lastDataCol n1
      (writeHeader s c L) s1
      (hkeyS ▸ hkey) (by rw [hmcol1]; exact Nat.le_max_right _ _) hkeyS hrc2'
      (hwhMR.trans hmrow1.symm) hw15' hchar' hempty'
      ((hn1'.symm).trans hspecB.2)]

/-- C3 witness: the amended idempotence applied to the clean fixture
`sheetC3w` - the second run reproduces the first run's output sheet and
count. -/
theorem C3_amended_idempotent_witness :
    applySheet "Net RTR 3/14/25" "2025-03-14" pivotC3 c3wSheet =
      Except.ok (c3wSheet, c3wCount) := by
  have hwf : Sheet.wf sheetC3w := by
    intro r q h
    have h' : 3 < r ∨ 5 < q := h
    show (if r = 2 ∧ q = 1 then strCell "ID"
      else if r = 2 ∧ q = 5 then strCell "Funder Advance ID"
      else if r = 3 ∧ q = 5 then strCell "A1"
      else emptyCell) = emptyCell
    rw [if_neg (by omega), if_neg (by omega), if_neg (by omega)]
  have hfresh : (scanHeaders sheetC3w "Net RTR 3/14/25").netRtrCol = none →
      ∀ r, 3 ≤ r → r ≤ sheetC3w.maxRow → (sheetC3w.cells r 6).value = none := by
    intro _ r h3 hmax
    have hm : sheetC3w.maxRow = 3 := rfl
    rw [hm] at hmax
    have : r = 3 := by omega
    rw [this]
    rfl
  exact C3_amended_idempotent "Net RTR 3/14/25" "2025-03-14" pivotC3 sheetC3w c3wSheet
    c3wCount 6 hwf (by decide) (by decide) (by decide) rfl rfl (by decide) hfresh

/-! ### Claim C1 -/

/-- C1 counterexample: the claim states that when the re-serialized bytes do
not begin with `PK`, no bytes are handed to the save/write collaborator and
the caller receives an error.  In this run the serializer emits `[0, 0]`
(which fails the ZIP-magic check), yet the bytes are written to the chosen
path and the caller receives a successful result: the output-magic check at
part_007 lines 455-476 (and Python lines 396-401) only logs a warning. -/
theorem C1_counterexample :
    listStartsWithPK [0, 0] = false ∧
    c1run.1 = Except.ok [0, 0] ∧
    Ev.wroteFile "out.xlsx" [0, 0] ∈ c1run.2 := by
  exact ⟨rfl, rfl, by decide⟩

/-- C1 amended: a failed ZIP-magic check on the serialized bytes is only
logged; whatever bytes the serializer produced are handed to the save/write
collaborator once the user confirms a path, and the caller receives success.
No hypothesis constrains `saveWorkbook wb'`, so this holds in particular for
output bytes that do not begin with `PK`. -/
theorem C1_amended_output_always_saved
    (pn rd : String) (pts : List FunderPivotData) (fb : List Nat)
    (lw : List Nat → Option Workbook) (sw : Workbook → List Nat)
    (sd : String → Option String) (wb wb' : Workbook) (lbl p : String)
    (hne : pts.length ≠ 0) (hpk : listStartsWithPK fb = true)
    (hload : lw fb = some wb)
    (hlbl : generate_net_rtr_column rd = some lbl)
    (hproc : processFunders lbl rd pts wb = Except.ok wb')
    (hdlg : sd (defaultFilename pn rd) = some p) :
    (updatePortfolioWorkbookWithNetRtr pn rd pts fb lw sw sd).1 = Except.ok (sw wb') ∧
    Ev.wroteFile p (sw wb') ∈ (updatePortfolioWorkbookWithNetRtr pn rd pts fb lw sw sd).2 := by
  unfold updatePortfolioWorkbookWithNetRtr
  rw [if_neg hne, if_neg (by simp [hpk]), hload, hlbl]
  simp [hproc, hdlg]

/-- C1 witness: the amended theorem applied to the `c1run` fixture, whose
serialized bytes `[0, 0]` fail the magic check and are saved anyway. -/
theorem C1_amended_output_always_saved_witness :
    c1run.1 = Except.ok [0, 0] ∧ Ev.wroteFile "out.xlsx" [0, 0] ∈ c1run.2 := by
  have h := C1_amended_output_always_saved "Alpha" "2025-03-14" pivotZero pkBytes
    (fun _ => some wbFix) (fun _ => [0, 0]) (fun _ => some "out.xlsx")
    wbFix c1wbOut "Net RTR 3/14/25" "out.xlsx"
    (by decide) (by decide) rfl (by decide) rfl rfl
  exact h

/-! ### Claim C4 -/

/-- C4 counterexample: the claim states that a full year in the past yields
no year suffix and that any other non-current year yields a zero-padded
2-digit suffix.  The code instead treats every year above 2000 (past or
future) as suffix-free and keeps all digits of years at or below 2000:
`name("1999-06-02")` is a past full year yet gets the 4-digit suffix
`/1999`, and `name("2026-01-02")` is a non-current future year yet gets no
suffix at all. -/
theorem C4_counterexample :
    generate_net_rtr_column "1999-06-02" = some "Net RTR 6/2/1999" ∧
    "Net RTR 6/2/1999" ≠ "Net RTR 6/2" ∧
    generate_net_rtr_column "2026-01-02" = some "Net RTR 1/2" ∧
    "Net RTR 1/2" ≠ "Net RTR 1/2/26" := by
  refine ⟨?_, ?_, ?_, ?_⟩ <;> decide

/-- C4 amended: the namer is a pure total function accepting both
`YYYY-MM-DD` and `MM/DD/YYYY`; if the parsed year is 2025 (or the 2-digit
year 25) it returns `Net RTR M/D/25`; if the year is any other year above
2000 - past or future - it returns `Net RTR M/D` with no suffix; otherwise
it returns the suffix `str(year)` left-padded with zeros to at least two
digits (4-digit years at or below 2000 keep all their digits).  In
particular `name("2025-01-17") = "Net RTR 1/17/25"` and
`name("2023-06-02") = "Net RTR 6/2"`; an unparseable date is an error. -/
theorem C4_amended_name_policy :
    (∀ y m d : Int, (y = 2025 ∨ y = 25) →
      netRtrLabelYMD y m d = "Net RTR " ++ toString m ++ "/" ++ toString d ++ "/25") ∧
    (∀ y m d : Int, ¬(y = 2025 ∨ y = 25) → 2000 < y →
      netRtrLabelYMD y m d = "Net RTR " ++ toString m ++ "/" ++ toString d) ∧
    (∀ y m d : Int, ¬(y = 2025 ∨ y = 25) → ¬(2000 < y) →
      netRtrLabelYMD y m d =
        "Net RTR " ++ toString m ++ "/" ++ toString d ++ "/" ++ zfill2 (toString y)) ∧
    generate_net_rtr_column "2025-01-17" = some "Net RTR 1/17/25" ∧
    generate_net_rtr_column "2023-06-02" = some "Net RTR 6/2" ∧
    generate_net_rtr_column "03/14/2025" = some "Net RTR 3/14/25" ∧
    generate_net_rtr_column "not a date" = none := by
  refine ⟨?_, ?_, ?_, by decide, by decide, by decide, by decide⟩
  · intro y m d h
    simp [netRtrLabelYMD, h]
  · intro y m d h h2
    simp [netRtrLabelYMD, h, h2]
  · intro y m d h h2
    simp [netRtrLabelYMD, h, h2]

/-- C4 witness: the first branch of the amended policy at the concrete date
2025-01-17. -/
theorem C4_amended_name_policy_witness :
    netRtrLabelYMD 2025 1 17 = "Net RTR " ++ toString (1 : Int) ++ "/" ++ toString (17 : Int) ++ "/25" :=
  C4_amended_name_policy.1 2025 1 17 (Or.inl rfl)

/-! ### Claim C5 -/

/-- Helper: while a bootstrap is in flight, `initialize()` is a no-op that
returns the stored promise. -/
theorem svcCalls_inflight (st : PyodideState) (p : Nat)
    (hi : st.pyodideInstance = none) (hf : st.isInitializing = true)
    (hp : st.initPromise = some p) :
    ∀ m, svcCalls st m = (st, List.replicate m (.pending p)) := by
  intro m
  induction m with
  | zero => rfl
  | succ k ih =>
    have hstep : svcInit st = (st, .pending p) := by
      simp [svcInit, hi, hf, hp]
    simp [svcCalls, hstep, ih, List.replicate_succ]

/-- C5: any burst of `n ≥ 1` concurrent `initialize()` calls (serialized by
the event loop, none completing in between) starting from the uninitialized
state returns the same pending bootstrap promise to every caller and runs
the bootstrap side effect exactly once. -/
theorem C5_single_flight (n : Nat) (hn : 1 ≤ n) :
    allPending 0 (svcCalls initialState n).2 = true ∧
    (svcCalls initialState n).1.bootstrapCount = 1 := by
  obtain ⟨m, rfl⟩ : ∃ m, n = m + 1 := ⟨n - 1, (Nat.succ_pred_eq_of_pos hn).symm⟩
  have hstep : svcInit initialState = (⟨none, true, some 0, 1, 1⟩, .pending 0) := by
    simp [svcInit, initialState]
  have hrest := svcCalls_inflight ⟨none, true, some 0, 1, 1⟩ 0 rfl rfl rfl m
  constructor
  · simp only [svcCalls, hstep, hrest, allPending, List.all_eq_true, List.mem_cons]
    rintro r (rfl | hr)
    · simp
    · simp [List.eq_of_mem_replicate hr]
  · simp [svcCalls, hstep, hrest]

/-- C5 witness: three concurrent callers, one bootstrap. -/
theorem C5_single_flight_witness :
    allPending 0 (svcCalls initialState 3).2 = true ∧
    (svcCalls initialState 3).1.bootstrapCount = 1 :=
  C5_single_flight 3 (by decide)

/-! ### Claim C9 -/

/-- C9: when the bootstrap fails while no instance is stored, the catch block
lowers the initializing flag and clears the stored in-flight promise
(restoring the uninitialized configuration), and the next `initialize()`
call starts a fresh bootstrap: it returns a new pending promise and
increments the bootstrap count instead of returning the failed result. -/
theorem C9_failure_resets (st : PyodideState) (hi : st.pyodideInstance = none) :
    (svcFail st).isInitializing = false ∧
    (svcFail st).initPromise = none ∧
    (svcFail st).pyodideInstance = none ∧
    (svcInit (svcFail st)).2 = .pending (svcFail st).nextPromiseId ∧
    (svcInit (svcFail st)).1.bootstrapCount = (svcFail st).bootstrapCount + 1 := by
  refine ⟨rfl, rfl, hi, ?_, ?_⟩ <;> simp [svcInit, svcFail, hi]

/-- C9 witness: failure after the first bootstrap attempt, followed by a
retry that starts bootstrap number two. -/
theorem C9_failure_resets_witness :
    (svcFail ⟨none, true, some 0, 1, 1⟩).isInitializing = false ∧
    (svcFail ⟨none, true, some 0, 1, 1⟩).initPromise = none ∧
    (svcFail ⟨none, true, some 0, 1, 1⟩).pyodideInstance = none ∧
    (svcInit (svcFail ⟨none, true, some 0, 1, 1⟩)).2 =
      .pending (svcFail ⟨none, true, some 0, 1, 1⟩).nextPromiseId ∧
    (svcInit (svcFail ⟨none, true, some 0, 1, 1⟩)).1.bootstrapCount =
      (svcFail ⟨none, true, some 0, 1, 1⟩).bootstrapCount + 1 :=
  C9_failure_resets ⟨none, true, some 0, 1, 1⟩ rfl

/-! ### Claim C10 -/

/-- C10: an empty pivot-table list makes the operation fail with the
`"No pivot tables found for the specified date"` error before the workbook
file is read - the event trace is empty, so nothing is read, decoded or
written.  A non-empty pivot list that matches zero workbook rows is not an
error: the `c10run` fixture matches nothing, completes successfully, and its
single funder pass reports an updated-row count of zero. -/
theorem C10_empty_pivots_abort :
    (∀ pn rd fb lw sw sd,
      updatePortfolioWorkbookWithNetRtr pn rd [] fb lw sw sd =
        (Except.error UpdateError.noPivotTables, [])) ∧
    updateErrorMessage UpdateError.noPivotTables = "No pivot tables found for the specified date" ∧
    c10run.1 = Except.ok pkBytes ∧
    (applySheet "Net RTR 3/14/25" "2025-03-14"
        (pivotZero.getD 0 ⟨"", "", [], ""⟩).pivot_data sheetFix).map (fun out => out.2) =
      Except.ok 0 := by
  refine ⟨?_, rfl, rfl, rfl⟩
  intro pn rd fb lw sw sd
  rfl

end Excelerate
